import Mathlib

/-!
# Conway BSS — verification of the behavior-tracking core

A shallow embedding of the Conway BSS Apps Script core (`src/main.ts`):
the week-block resolver, the on-edit guard, the event-ledger
reconciliation (`processNewEvents`), the alert dispatcher
(`scanAndSendAlerts`) and the per-team roster synchronizer
(`syncRosterForTeam`).

Cell values are modeled as `String` (the script compares cell contents
against `''`/falsiness; dates and numbers only ever flow through
formatting helpers that are modeled as explicit function parameters).
A sheet is a grid of values plus a parallel grid of cell notes.
`getValues` on a range is modeled by reads with default `""`, matching
Apps Script's behavior of returning blanks for empty cells, and
`setValue` by an update that pads the grid as needed, matching a
spreadsheet's unbounded growth.

External collaborators that are out of the core's scope (date
formatting via the host's `Date`, `JSON.stringify`, the Variables-sheet
recipient lookup, `MailApp`) are passed in as explicit function
parameters of the functions that consume them, mirroring the source's
call sites.
-/

namespace BSS

/-- JavaScript's `String.prototype.toLowerCase`, on the ASCII letters the
script's labels use. -/
def jsLower (s : String) : String := ⟨s.data.map Char.toLower⟩

/-- JavaScript's `String.prototype.trim`. -/
def jsTrim (s : String) : String :=
  ⟨((s.data.dropWhile Char.isWhitespace).reverse.dropWhile
      Char.isWhitespace).reverse⟩

/-- A rectangular-ish grid of cell values, row-major, 0-based. -/
abbrev Grid := List (List String)

/-- Pad a row with empty cells up to length `n` (no-op if already longer). -/
def padRow (l : List String) (n : Nat) : List String :=
  l ++ List.replicate (n - l.length) ""

/-- Pad a grid with empty rows up to `n` rows (no-op if already taller). -/
def padGrid (g : Grid) (n : Nat) : Grid :=
  g ++ List.replicate (n - g.length) []

/-- Read a cell (0-based); empty cells read as `""`, like `getValues`. -/
def gcell (g : Grid) (r c : Nat) : String :=
  (g.getD r []).getD c ""

/-- Write a cell (0-based), growing the grid as needed, like `setValue`. -/
def gset (g : Grid) (r c : Nat) (v : String) : Grid :=
  let g' := padGrid g (r + 1)
  g'.set r (((padRow (g'.getD r []) (c + 1))).set c v)

/-- Overwrite an entire row (0-based), growing the grid as needed;
models a whole-row `setValues` write. -/
def gsetRow (g : Grid) (r : Nat) (row : List String) : Grid :=
  (padGrid g (r + 1)).set r row

/-- Write a batch of rows starting at row `start` (0-based); models
`getRange(start+1, 1, rows.length, w).setValues(rows)`. -/
def writeRowsAt (g : Grid) (start : Nat) (rows : List (List String)) : Grid :=
  match rows with
  | [] => g
  | row :: rest => writeRowsAt (gsetRow g start row) (start + 1) rest

/-- A sheet: a name, the value grid and the parallel note grid. -/
structure Sheet where
  name : String
  values : Grid
  notes : Grid
deriving Repr, DecidableEq

/-- The column extent of a sheet (`getLastColumn`). -/
def sheetWidth (s : Sheet) : Nat :=
  (s.values.map List.length).foldr Nat.max 0

/-- 1-based cell read, as `getRange(r, c).getValue()`. -/
def Sheet.cellAt (s : Sheet) (r c : Nat) : String :=
  gcell s.values (r - 1) (c - 1)

/-- 1-based cell write, as `getRange(r, c).setValue(v)`. -/
def Sheet.setValueAt (s : Sheet) (r c : Nat) (v : String) : Sheet :=
  { s with values := gset s.values (r - 1) (c - 1) v }

/-- 1-based note read, as `getRange(r, c).getNote()` (blank = `""`). -/
def Sheet.noteAt (s : Sheet) (r c : Nat) : String :=
  gcell s.notes (r - 1) (c - 1)

/-- 1-based note write, as `getRange(r, c).setNote(v)`. -/
def Sheet.setNoteAt (s : Sheet) (r c : Nat) (v : String) : Sheet :=
  { s with notes := gset s.notes (r - 1) (c - 1) v }

/-! ## Global configuration (`src/main.ts` top of file) -/

/-- `FIRST_STUDENT_ROW` -/
def FIRST_STUDENT_ROW : Nat := 3

/-- `TEAM_TEMPLATE_NAME` -/
def TEAM_TEMPLATE_NAME : String := "TeamTemplate"

/-- `EXCLUDE_SHEETS` -/
def EXCLUDE_SHEETS : List String :=
  ["Variables", "Templates", "StudentList", "EmailLog", "DebugLog",
   "EventLog", TEAM_TEMPLATE_NAME]

/-- `INFRACTION_SEQUENCE` -/
def INFRACTION_SEQUENCE : List String := ["1st", "2nd", "3rd", "4th", "5th"]

/-- `replaceAllTokens`: `source.split(search).join(replacement)`. -/
def replaceAllTokens (source search replacement : String) : String :=
  String.intercalate replacement (source.splitOn search)

/-! ## Week-block resolver -/

/-- `WeekColumnBlock` (columns are 1-based, as in the source). -/
structure WeekColumnBlock where
  startCol : Nat
  endCol : Nat
  label : String
deriving Repr, DecidableEq

/-- `getWeekColumnBlocks`: scan header row 2 for cells whose trimmed,
lowercased value is `'5th'`; each closes a block of (up to) five columns
ending there, labeled by the row-1 value above the closing column. -/
def getWeekColumnBlocks (s : Sheet) : List WeekColumnBlock :=
  let width := sheetWidth s
  if width < 5 then [] else
  let topRow := s.values.getD 0 []
  let secondRow := s.values.getD 1 []
  (List.range width).filterMap (fun c =>
    let subHeader := jsLower (jsTrim (secondRow.getD c ""))
    if subHeader = "5th" then
      let endCol := c + 1
      let startCol := Nat.max 1 (endCol - 4)
      let label := jsTrim (topRow.getD c "")
      some ⟨startCol, endCol, label⟩
    else none)

/-- The result of the inner scan of `getActiveWeekForSheet` at a marker
column `c`: `some r` means the function returns `r` from here, `none`
means the outer loop keeps scanning for another `'active'` marker. -/
def activeResultAt (row0 row1 : List String) (width c : Nat) :
    Option (Option String) :=
  if jsLower (jsTrim (row0.getD c "")) = "active" then
    match (List.range width).find? (fun cc =>
        c + 1 ≤ cc ∧ jsTrim (row1.getD cc "") = "5th") with
    | some cc =>
        let weekDate := jsTrim (row0.getD cc "")
        some (if weekDate ≠ "" then some ("Week of " ++ weekDate) else none)
    | none => none
  else none

/-- `getActiveWeekForSheet`: locate an `'active'` marker in header row 1,
then the first `'5th'` label to its right in row 2, and return
`"Week of " ++` the week-date token above that column. -/
def getActiveWeekForSheet (s : Sheet) : Option String :=
  let width := sheetWidth s
  let row0 := s.values.getD 0 []
  let row1 := s.values.getD 1 []
  match (List.range width).findSome? (activeResultAt row0 row1 width) with
  | some r => r
  | none => none

/-- The regex rewrite `activeWeekStr.replace(/^Week of\s+/i, '')`: when the
string opens with `"week of"` (case-insensitively) followed by at least one
whitespace character, drop that marker and the whitespace run. -/
def dropWeekOfMarker (s : String) : String :=
  let l := s.data
  if (l.take 7).map Char.toLower = "week of".data ∧
      ((l.drop 7).headD 'x').isWhitespace then
    ⟨(l.drop 7).dropWhile Char.isWhitespace⟩
  else s

/-- `getActiveWeekBlockCols`: second lookup path for the active block.
Strips the `"Week of "` marker from `getActiveWeekForSheet`'s result and
searches for a `'5th'` column whose row-1 date token equals it; the two
paths must agree or the result is `none`. -/
def getActiveWeekBlockCols (s : Sheet) : Option (Nat × Nat) :=
  let width := sheetWidth s
  if width < 5 then none else
  match getActiveWeekForSheet s with
  | none => none
  | some activeWeekStr =>
    let weekDate := jsTrim (dropWeekOfMarker activeWeekStr)
    let row0 := s.values.getD 0 []
    let row1 := s.values.getD 1 []
    match (List.range width).find? (fun c =>
        jsTrim (row1.getD c "") = "5th" ∧ jsTrim (row0.getD c "") = weekDate) with
    | some c => some (Nat.max 1 (c + 1 - 4), c + 1)
    | none => none

/-- `getWeekForInfractionCol`: resolve the week label of an infraction
column (0-based `col` into the header rows) by scanning forward to the
block's `'5th'` column and reading the date token above it. -/
def getWeekForInfractionCol (headers : Grid) (col : Nat) : String :=
  let row0 := headers.getD 0 []
  let row1 := headers.getD 1 []
  let infractionLabel := jsTrim (row1.getD col "")
  if infractionLabel = "5th" then
    let weekDate := jsTrim (row0.getD col "")
    if weekDate ≠ "" then "Week of " ++ weekDate else "Unknown Week"
  else
    match (List.range row1.length).find? (fun c =>
        col + 1 ≤ c ∧ jsTrim (row1.getD c "") = "5th") with
    | some c =>
        let weekDate := jsTrim (row0.getD c "")
        if weekDate ≠ "" then "Week of " ++ weekDate else "Unknown Week"
    | none => "Unknown Week"

/-! ## EditGuard (`onEdit`) -/

/-- The return point through which `onEdit` exited; each constructor
corresponds to one `return`/fall-through of the source. -/
inductive EditOutcome where
  /-- excluded sheet, header row, or malformed event: the guard does nothing -/
  | ignored
  /-- edit outside the active week block: reverted -/
  | blockedWeek
  /-- the column's row-2 label is not an infraction rank: accepted unmodified -/
  | nonInfraction
  /-- the new value is empty (a deletion): accepted unmodified -/
  | emptyValue
  /-- a lower rank is missing: reverted/cleared -/
  | sequenceBlocked
  /-- no confirmed user email: reverted/cleared, explanatory note attached -/
  | emailBlocked
  /-- accepted; attribution note stamped -/
  | accepted
deriving Repr, DecidableEq

/-- The outcome of one `onEdit` invocation: the sheet afterwards, the exit
point taken, and the column the value was auto-moved to, if any. -/
structure EditResult where
  sheet : Sheet
  outcome : EditOutcome
  relocatedTo : Option Nat
deriving Repr, DecidableEq

/-- Revert a cell to the edit event's `oldValue`
(`e.range.setValue(e.oldValue)`), or clear it when `oldValue` is absent
(`e.range.clearContent()`). -/
def revertCell (s : Sheet) (r c : Nat) (oldValue : Option String) : Sheet :=
  match oldValue with
  | some v => s.setValueAt r c v
  | none => s.setValueAt r c ""

/-- The note text attached when no confirmed email exists. -/
def emailBlockNote : String :=
  "Edit blocked: confirm your email via menu Conway BSS - Confirm My Email."

/-- The working state of an edit inside `onEdit`'s week-block phase: the
sheet after any relocation writes, the (possibly relocated) working
column, the working rank index, and whether the value was auto-moved
(`workingRange !== originalRange`). -/
structure WorkingEdit where
  sheet : Sheet
  workCol : Nat
  workIdx : Nat
  relocated : Bool
deriving Repr, DecidableEq

/-- The relocation step of `onEdit`: compute the first missing rank slot
of the edited row within the week block; when the edited rank's index is
greater, revert the edited cell and write `newVal` into the first-missing
column instead. -/
def relocationStep (s : Sheet) (row col labelIndex : Nat) (newVal : String)
    (oldValue : Option String) (wb : WeekColumnBlock) : WorkingEdit :=
  match (List.range INFRACTION_SEQUENCE.length).find? (fun idx =>
      s.cellAt row (wb.startCol + idx) = "") with
  | some fmi =>
    if labelIndex > fmi then
      ⟨(revertCell s row col oldValue).setValueAt row (wb.startCol + fmi)
          newVal,
       wb.startCol + fmi, fmi, true⟩
    else ⟨s, col, labelIndex, false⟩
  | none => ⟨s, col, labelIndex, false⟩

/-- The `if (weekBlock)` body of `onEdit`: relocation, then verification
that every rank column below the working index is non-empty.  `.inr`
carries the sequence-rejection result (target reverted or cleared);
`.inl` hands the working state on to the email check. -/
def rankPhase (s : Sheet) (row col labelIndex : Nat) (newVal : String)
    (oldValue : Option String) (wb : WeekColumnBlock) :
    WorkingEdit ⊕ EditResult :=
  let w := relocationStep s row col labelIndex newVal oldValue wb
  match (List.range w.workIdx).find? (fun i =>
      w.sheet.cellAt row (wb.startCol + i) = "") with
  | some _ =>
    .inr ⟨(if w.relocated then w.sheet.setValueAt row w.workCol ""
           else revertCell w.sheet row col oldValue),
          .sequenceBlocked, if w.relocated then some w.workCol else none⟩
  | none => .inl w

/-- The attribution check and note stamp at the end of `onEdit`: without
a previously-confirmed email the working cell is reverted/cleared and an
explanatory note attached to the *original* cell; with one, an
`Entered by` line is prepended to the working cell's note history. -/
def emailPhase (email : Option String) (nowStr : String) (w : WorkingEdit)
    (row col : Nat) (oldValue : Option String) : EditResult :=
  match email with
  | none =>
    let s2 := if w.relocated then w.sheet.setValueAt row w.workCol ""
              else revertCell w.sheet row col oldValue
    let s3 := s2.setNoteAt row col emailBlockNote
    ⟨s3, .emailBlocked, if w.relocated then some w.workCol else none⟩
  | some em =>
    let stamp := "Entered by: " ++ em ++ " | " ++ nowStr
    let prevNote := w.sheet.noteAt row w.workCol
    let note := stamp ++ (if prevNote ≠ "" then "\n" ++ prevNote else "")
    ⟨w.sheet.setNoteAt row w.workCol note, .accepted,
     if w.relocated then some w.workCol else none⟩

/-- `onEdit(e)`.  `email` models the stored per-user
`bssUserEmail` property (`getSavedUserEmail_`), `nowStr` the
`new Date().toLocaleString()` stamp.  `s` is the sheet as `onEdit` sees it —
that is, *after* the interactive edit already changed the cell — with the
1-based edited position `(row, col)`, and `evalue`/`oldValue` are
`e.value`/`e.oldValue` (absent = JavaScript `undefined`). -/
def onEdit (email : Option String) (nowStr : String) (s : Sheet)
    (row col : Nat) (evalue oldValue : Option String) : EditResult :=
  if EXCLUDE_SHEETS.contains s.name then ⟨s, .ignored, none⟩
  else if row ≤ FIRST_STUDENT_ROW then ⟨s, .ignored, none⟩
  else
    let cols := getActiveWeekBlockCols s
    -- week guard: only allow edits inside the active week's block
    let weekGuardHit : Bool :=
      match cols with
      | some cb => decide (¬ (cb.1 ≤ col ∧ col ≤ cb.2))
      | none => false
    if weekGuardHit then ⟨revertCell s row col oldValue, .blockedWeek, none⟩
    else
    -- identify infraction columns by row 2 labels
    let label := jsLower (jsTrim (s.cellAt 2 col))
    match INFRACTION_SEQUENCE.indexOf? label with
    | none => ⟨s, .nonInfraction, none⟩
    | some labelIndex =>
      let newVal := match evalue with
                    | some v => v
                    | none => s.cellAt row col
      if newVal = "" then ⟨s, .emptyValue, none⟩
      else
        let weekBlock : Option WeekColumnBlock :=
          match (getWeekColumnBlocks s).find? (fun block =>
              block.startCol ≤ col ∧ col ≤ block.endCol) with
          | some b => some b
          | none =>
            match cols with
            | some cb => some ⟨cb.1, cb.2, "active"⟩
            | none => none
        match weekBlock with
        | none => emailPhase email nowStr ⟨s, col, labelIndex, false⟩ row col oldValue
        | some wb =>
          match rankPhase s row col labelIndex newVal oldValue wb with
          | .inr result => result
          | .inl w => emailPhase email nowStr w row col oldValue

/-- The ordinal-sequence invariant of the spec, for one subject row over
the block of five rank columns starting at 1-based column `sc`: a rank
cell holds a non-empty value only if all lower rank cells do. -/
def seqInv (s : Sheet) (row sc : Nat) : Prop :=
  ∀ j, j < 5 → ∀ i, i < j → s.cellAt row (sc + j) ≠ "" →
    s.cellAt row (sc + i) ≠ ""

instance (s : Sheet) (row sc : Nat) : Decidable (seqInv s row sc) := by
  unfold seqInv
  infer_instance

/-! ## EventLedger (`processNewEvents`) -/

/-- Association-list write with JavaScript object-assignment semantics:
overwrite the binding if the key exists, else add it. -/
def setAssoc {β : Type} (m : List (String × β)) (k : String) (v : β) :
    List (String × β) :=
  match m with
  | [] => [(k, v)]
  | (k0, v0) :: rest =>
    if k0 = k then (k, v) :: rest else (k0, v0) :: setAssoc rest k v

/-- JavaScript truthy lookup `if (map[key]) ...`: the bound value when it
exists and is truthy (a nonzero row number), else `none`. -/
def mapTruthy (m : List (String × Nat)) (k : String) : Option Nat :=
  match m.lookup k with
  | some n => if n ≠ 0 then some n else none
  | none => none

/-- Read `row[i]` where `i` came from `headers.indexOf(h)`; a missing
header (`indexOf = -1`, so `row[-1] = undefined`) reads as `""`. -/
def getIdx (row : List String) (i : Option Nat) : String :=
  match i with
  | some n => row.getD n ""
  | none => ""

/-- JavaScript object built by assigning `obj[headers[i]] = row[i]` for
each column, with later duplicate headers overwriting earlier ones. -/
def buildRecord (headers row : List String) : List (String × String) :=
  (List.range headers.length).foldl (fun m i =>
    setAssoc m (headers.getD i "") (row.getD i "")) []

/-- Object property read with default `""` for `undefined`. -/
def assocGet (m : List (String × String)) (k : String) : String :=
  (m.lookup k).getD ""

/-- `getValues()` of a sheet's data range: a rectangular array, short rows
padded with blanks to the sheet's width. -/
def rectValues (s : Sheet) : Grid :=
  s.values.map (fun row => padRow row (sheetWidth s))

/-- The suffix following the first occurrence (case-insensitive) of
`"entered by:"` in a character list, if any. -/
def findAfterEnteredBy : List Char → Option (List Char)
  | [] => none
  | c :: rest =>
    if ((c :: rest).take 11).map Char.toLower = "entered by:".data then
      some ((c :: rest).drop 11)
    else findAfterEnteredBy rest

/-- The attribution parse of `processNewEvents`: match the first line of a
cell note against `/Entered by:\s*([^|]+)\s*\|/i`, accept the capture when
its trimmed form contains `'@'`, else the `'unknown'` sentinel. -/
def parseEnteredBy (note : String) : String :=
  if note = "" then "unknown" else
  let firstLine := note.data.takeWhile (fun ch => ch ≠ '\n')
  match findAfterEnteredBy firstLine with
  | none => "unknown"
  | some rest =>
    let seg := rest.takeWhile (fun ch => ch ≠ '|')
    if seg ≠ [] ∧ rest.drop seg.length ≠ [] then
      let cand := jsTrim ⟨seg⟩
      if cand ≠ "" ∧ cand.data.contains '@' then cand else "unknown"
    else "unknown"

/-- The header row `processNewEvents` writes when it creates the
`EventLog` sheet. -/
def stdEventHeaders : List String :=
  ["Timestamp", "DSID", "Last Name", "First Name", "Grade", "Team",
   "Infraction", "Week", "Entered By", "Sheet Name", "Source Value",
   "All Student Data", "Alerted"]

/-- The ledger key the reconciliation derives from a ledger row:
`row[DSID] + '|' + row[Infraction] + '|' + formatWeekDate(row[Week])`. -/
def rowKey (fmt : String → String) (ecol : String → Option Nat)
    (row : List String) : String :=
  String.intercalate "|"
    [getIdx row (ecol "DSID"), getIdx row (ecol "Infraction"),
     fmt (getIdx row (ecol "Week"))]

/-- The key of every data row of an `EventLog` grid under the standard
ledger schema. -/
def ledgerKeys (fmt : String → String) (g : Grid) : List String :=
  (g.drop 1).map (rowKey fmt (fun h => stdEventHeaders.indexOf? h))

/-- The `DSID|Infraction|Week -> rowIndex` map over the already-logged
events (row indices are 1-based sheet rows, so `i + 1`). -/
def buildEventMap (fmt : String → String) (ecol : String → Option Nat)
    (logged : Grid) : List (String × Nat) :=
  ((List.range logged.length).drop 1).foldl (fun m i =>
    setAssoc m (rowKey fmt ecol (logged.getD i [])) (i + 1)) []

/-- The reconciliation pass's mutable state: the `EventLog` grid (updated
in place for `Source Value` changes), the key map, the batch of new rows
pending append, and the trace of `Source Value` writes performed
(`(0-based row, 0-based column, previous value, written value)`). -/
structure PState where
  grid : Grid
  eventMap : List (String × Nat)
  newEvents : List (List String)
  writes : List (Nat × Nat × String × String)
deriving Repr, DecidableEq

/-- Handle one observed non-empty infraction cell: update the existing
ledger row's `Source Value` (only if changed; a `rowIdx` registered for a
key first seen in this run points past the sheet, reads back `""`, and
the write then grows the sheet), or push a new event row and register its
future sheet row in the key map as the sheet's current last row — which
such in-run writes may already have extended — plus the pending count
(`eventSheet.getLastRow() + newEvents.length`, main.ts:846). -/
def observeCell (ecol : String → Option Nat) (now : String)
    (serialize : List (String × String) → String) (sheetName : String)
    (studentData : List (String × String))
    (dsid infractionNum week value note : String) (st : PState) : PState :=
  let key := String.intercalate "|" [dsid, infractionNum, week]
  let enteredBy := parseEnteredBy note
  match mapTruthy st.eventMap key with
  | some rowIdx =>
    match ecol "Source Value" with
    | some sv =>
      let existingValue := gcell st.grid (rowIdx - 1) sv
      if existingValue ≠ value then
        { st with grid := gset st.grid (rowIdx - 1) sv value,
                  writes := st.writes ++ [(rowIdx - 1, sv, existingValue, value)] }
      else st
    | none => st
  | none =>
    let newRow := [now, dsid, assocGet studentData "Last Name",
                   assocGet studentData "First Name",
                   assocGet studentData "Grade", assocGet studentData "Team",
                   infractionNum, week, enteredBy, sheetName, value,
                   serialize studentData, ""]
    let newEvents := st.newEvents ++ [newRow]
    { st with newEvents := newEvents,
              eventMap := setAssoc st.eventMap key
                (st.grid.length + newEvents.length) }

/-- Find the `StudentList` row (index ≥ 1) whose `DSID` column equals
`dsid`. -/
def findStudent (students : Grid) (studentHeaders : List String)
    (dsid : String) : Option Nat :=
  match studentHeaders.indexOf? "DSID" with
  | none => none
  | some di =>
    (List.range students.length).find? (fun i =>
      1 ≤ i ∧ (students.getD i []).getD di "" = dsid)

/-- Process one student row of a team view: look the student up in the
directory (falling back to the view's own row), then fold over the
view's infraction columns. -/
def processRow (ecol : String → Option Nat) (now : String)
    (serialize : List (String × String) → String) (fmt : String → String)
    (students : Grid) (studentHeaders : List String) (sheet : Sheet)
    (data : Grid) (sheetHeaders : List String) (dsidIdx : Nat)
    (infractionCols : List Nat) (st : PState) (r : Nat) : PState :=
  let studentRow := data.getD r []
  let dsid := studentRow.getD dsidIdx ""
  if dsid = "" then st else
  let studentData :=
    match findStudent students studentHeaders dsid with
    | some i => buildRecord studentHeaders (students.getD i [])
    | none => buildRecord sheetHeaders studentRow
  infractionCols.foldl (fun st infCol =>
    let value := studentRow.getD infCol ""
    if value = "" then st else
    let infractionNum := (data.getD 1 []).getD infCol ""
    let weekRaw := getWeekForInfractionCol data infCol
    let week := fmt weekRaw
    let note := sheet.noteAt (r + 1) (infCol + 1)
    observeCell ecol now serialize sheet.name studentData dsid
      infractionNum week value note st) st

/-- Process one sheet of the spreadsheet: skip structural sheets and
sheets without data rows or a `DSID` header, find the infraction columns
from header row 2, then fold over the student rows. -/
def processSheet (ecol : String → Option Nat) (now : String)
    (serialize : List (String × String) → String) (fmt : String → String)
    (students : Grid) (studentHeaders : List String) (st : PState)
    (sheet : Sheet) : PState :=
  if EXCLUDE_SHEETS.contains sheet.name then st else
  let data := rectValues sheet
  if data.length < FIRST_STUDENT_ROW + 1 then st else
  let sheetHeaders := data.getD 2 []
  match sheetHeaders.indexOf? "DSID" with
  | none => st
  | some dsidIdx =>
    let infractionCols := (List.range sheetHeaders.length).filter (fun c =>
      INFRACTION_SEQUENCE.contains (jsLower (jsTrim ((data.getD 1 []).getD c ""))))
    ((List.range data.length).drop FIRST_STUDENT_ROW).foldl
      (processRow ecol now serialize fmt students studentHeaders
        sheet data sheetHeaders dsidIdx infractionCols) st

/-- `processNewEvents`: one reconciliation pass over all

non-structural views.  `fmt` models `formatWeekDate` (host `Date`
normalization to `"Mon D, YYYY"`), `serialize` models `JSON.stringify`,
`now` the creation timestamp, `eventLog` the `EventLog` grid (header row
included; the create-if-missing path corresponds to passing
`[stdEventHeaders]`), `students` the `StudentList` grid.  Returns the
resulting `EventLog` grid — in-place `Source Value` updates plus the
batch append of new rows starting below the sheet's last row as it
stands after those updates (`getLastRow() + 1` re-read at main.ts:853,
so in-run writes to future rows push the batch further down) — and the
trace of `Source Value` cell writes. -/
def processNewEvents (fmt : String → String)
    (serialize : List (String × String) → String) (now : String)
    (sheets : List Sheet) (eventLog : Grid) (students : Grid) :
    Grid × List (Nat × Nat × String × String) :=
  let eventHeaders := eventLog.getD 0 []
  let ecol := fun h => eventHeaders.indexOf? h
  let eventMap := buildEventMap fmt ecol eventLog
  let studentHeaders := students.getD 0 []
  let st0 : PState := ⟨eventLog, eventMap, [], []⟩
  let stF := sheets.foldl
    (processSheet ecol now serialize fmt students studentHeaders) st0
  (writeRowsAt stF.grid stF.grid.length stF.newEvents, stF.writes)

/-! ## AlertDispatcher (`scanAndSendAlerts`) -/

/-- `getTemplateByName`'s result: subject, body and declared merge fields
of the notice template. -/
structure EmailTemplate where
  subject : String
  body : String
  mergeFields : List String
deriving Repr, DecidableEq

/-- The `normalizeWeekStr` helper: blank input normalizes to `''`
(`if (!weekStr) return ''`); non-blank strings go through the host-side
date/regex normalization to `"Mon D, YYYY"`, modeled by `f`. -/
def normWeekFull (f : String → String) (s : String) : String :=
  if s = "" then "" else f s

/-- The per-sheet normalized active week map built at the top of
`scanAndSendAlerts` (sheet name → normalized active week, only when
non-blank). -/
def teamActiveWeeks (f : String → String) (sheets : List Sheet) :
    List (String × String) :=
  sheets.foldl (fun m sheet =>
    if EXCLUDE_SHEETS.contains sheet.name then m else
    let activeWeekRaw := getActiveWeekForSheet sheet
    let activeWeek :=
      normWeekFull f (match activeWeekRaw with | some s => s | none => "")
    if activeWeek ≠ "" then setAssoc m sheet.name activeWeek else m) []

/-- The alert scan's context: the snapshot of the `EventLog` read once at
the top (`events`), the active-week map, and the external collaborators —
`normW` models the date normalization inside `normalizeWeekStr`,
`parseJson` models `JSON.parse` of the identity snapshot (failures → `[]`),
`recips` models `getAlertRecipients` over the Variables sheet (a missing
Variables sheet is the constant `[]`), `sendOk i` models whether the
`MailApp.sendEmail` call for event row `i` succeeds or throws, and
`template` is the `'5th Infraction Notice'` template (`none` = Templates
sheet missing). -/
structure ScanCtx where
  normW : String → String
  parseJson : String → List (String × String)
  recips : String → List String
  sendOk : Nat → Bool
  now : String
  template : Option EmailTemplate
  events : Grid
  activeWeeks : List (String × String)

/-- The alert scan's mutable state: the `EventLog` grid being updated
(`Alerted` markers), the trace of `MailApp.sendEmail` calls
(`(0-based event row, recipients)`), the `alertsSent` counter, the
`EmailLog` grid (if that sheet exists) and the trace of `EmailLog`
appends by event row. -/
structure ScanState where
  grid : Grid
  attempts : List (Nat × List String)
  alertsSent : Nat
  emailLog : Option Grid
  audits : List Nat
deriving Repr, DecidableEq

/-- The guard chain at the top of one iteration of the alert scan's
event loop (the sequence of early `continue`s of the source): terminal
rank, not yet alerted, the origin view has a normalized active week that
equals the event's normalized week, and the notice template exists. -/
def scanQualifies (C : ScanCtx) (i : Nat) : Bool :=
  let headers := C.events.getD 0 []
  let hIdx := fun h => headers.indexOf? h
  let event := C.events.getD i []
  let infraction := getIdx event (hIdx "Infraction")
  let week := normWeekFull C.normW (getIdx event (hIdx "Week"))
  let sheetName := getIdx event (hIdx "Sheet Name")
  let alerted := getIdx event (hIdx "Alerted")
  decide (infraction = "5th") && decide (alerted = "") &&
    (match C.activeWeeks.lookup sheetName with
     | some activeWeek => decide (week = activeWeek)
     | none => false) &&
    C.template.isSome

/-- The `repeatCount` statistic of one scan iteration: how many ledger
rows share the event's `DSID` at the terminal rank. -/
def scanRepeatCount (C : ScanCtx) (i : Nat) : Nat :=
  let headers := C.events.getD 0 []
  let hIdx := fun h => headers.indexOf? h
  let dsid := getIdx (C.events.getD i []) (hIdx "DSID")
  (C.events.filter (fun ev =>
    getIdx ev (hIdx "DSID") = dsid ∧
    getIdx ev (hIdx "Infraction") = "5th")).length

/-- The `totalInfractions` statistic of one scan iteration: how many
ledger rows share the event's `DSID`. -/
def scanTotalInfractions (C : ScanCtx) (i : Nat) : Nat :=
  let headers := C.events.getD 0 []
  let hIdx := fun h => headers.indexOf? h
  let dsid := getIdx (C.events.getD i []) (hIdx "DSID")
  (C.events.filter (fun ev => getIdx ev (hIdx "DSID") = dsid)).length

/-- The merge-field record of one scan iteration:
`{...baseFields, ...studentData}` — the parsed identity snapshot
overrides the base fields drawn from the ledger row. -/
def scanMergeFields (C : ScanCtx) (i : Nat) : List (String × String) :=
  let headers := C.events.getD 0 []
  let hIdx := fun h => headers.indexOf? h
  let event := C.events.getD i []
  let dsid := getIdx event (hIdx "DSID")
  let infraction := getIdx event (hIdx "Infraction")
  let week := normWeekFull C.normW (getIdx event (hIdx "Week"))
  let sheetName := getIdx event (hIdx "Sheet Name")
  let studentDataRaw := getIdx event (hIdx "All Student Data")
  let student :=
    if jsTrim studentDataRaw ≠ "" then C.parseJson studentDataRaw else []
  let baseFields : List (String × String) :=
    [("DSID", dsid), ("Last Name", getIdx event (hIdx "Last Name")),
     ("First Name", getIdx event (hIdx "First Name")),
     ("Grade", getIdx event (hIdx "Grade")),
     ("Team", getIdx event (hIdx "Team")),
     ("Infraction", infraction), ("Week", week),
     ("Sheet Name", sheetName),
     ("Entered By", getIdx event (hIdx "Entered By")),
     ("Repeat Count", toString (scanRepeatCount C i)),
     ("Total Infractions", toString (scanTotalInfractions C i))]
  student ++ baseFields

/-- The recipient list one scan iteration resolves: the alert recipients
configured for the merge-field record's `Team`. -/
def scanRecipients (C : ScanCtx) (i : Nat) : List String :=
  C.recips (assocGet (scanMergeFields C i) "Team")

/-- The summary line one scan iteration appends to the `EmailLog`. -/
def scanSummary (C : ScanCtx) (i : Nat) : String :=
  "ALERT: " ++ assocGet (scanMergeFields C i) "First Name" ++ " " ++
  assocGet (scanMergeFields C i) "Last Name" ++ " (Grade " ++
  assocGet (scanMergeFields C i) "Grade" ++ ", " ++
  assocGet (scanMergeFields C i) "Team" ++ ") | 5th infraction for " ++
  assocGet (scanMergeFields C i) "Week" ++ " | Repeats: " ++
  toString (scanRepeatCount C i) ++ ", Total: " ++
  toString (scanTotalInfractions C i) ++ " | Recipients: " ++
  String.intercalate ", " (scanRecipients C i)

/-- The `EmailLog` row one scan iteration appends, assembled against that
sheet's header row. -/
def scanLogEntry (C : ScanCtx) (i : Nat) (logHeaders : List String) :
    List String :=
  let headers := C.events.getD 0 []
  let hIdx := fun h => headers.indexOf? h
  let event := C.events.getD i []
  logHeaders.map (fun h =>
    if h = "Timestamp" then C.now
    else if h = "DSID" then getIdx event (hIdx "DSID")
    else if h = "Last Name" then getIdx event (hIdx "Last Name")
    else if h = "First Name" then getIdx event (hIdx "First Name")
    else if h = "Grade" then getIdx event (hIdx "Grade")
    else if h = "Team" then getIdx event (hIdx "Team")
    else if h = "Infraction" then getIdx event (hIdx "Infraction")
    else if h = "Week" then normWeekFull C.normW (getIdx event (hIdx "Week"))
    else if h = "Sheet Name" then getIdx event (hIdx "Sheet Name")
    else if h = "Entered By" then getIdx event (hIdx "Entered By")
    else if h = "Body" then scanSummary C i
    else if h = "Recipients" then
      String.intercalate ", " (scanRecipients C i)
    else "")

/-- One iteration of the alert scan's event loop (event row `i` of the
snapshot).  When the guard chain passes: attempt one notification when
the recipient list is non-empty (the attempt trace records the
`MailApp.sendEmail` call; `sendOk` models whether it throws), mark the
`Alerted` cell with the current timestamp regardless, and append a
summary row to the `EmailLog` if that sheet exists.  The expanded
subject/body strings handed to the sender are pure string assembly that
never feeds back into state. -/
def scanStep (C : ScanCtx) (st : ScanState) (i : Nat) : ScanState :=
  if scanQualifies C i then
    let recipientEmails := scanRecipients C i
    let st1 :=
      if recipientEmails ≠ [] then
        { st with attempts := st.attempts ++ [(i, recipientEmails)],
                  alertsSent :=
                    st.alertsSent + (if C.sendOk i then 1 else 0) }
      else st
    -- mark as alerted regardless of whether an email was sent
    let st2 := { st1 with grid :=
      (match (C.events.getD 0 []).indexOf? "Alerted" with
       | some a => gset st1.grid i a C.now
       | none => st1.grid) }
    match st2.emailLog with
    | none => st2
    | some lg =>
      { st2 with
        emailLog := some (lg ++ [scanLogEntry C i (lg.getD 0 [])]),
        audits := st2.audits ++ [i] }
  else st

/-- `scanAndSendAlerts`: scan the ledger for un-alerted terminal-rank
events in their view's active week, attempt one notification each (only
when the recipient list is non-empty), and mark every qualifying event's
`Alerted` cell with the current timestamp.  `eventLog` is the `EventLog`
grid (`events` snapshot), `emailLog` the `EmailLog` grid if that sheet
exists. -/
def scanAndSendAlerts (normW : String → String)
    (parseJson : String → List (String × String))
    (recips : String → List String) (sendOk : Nat → Bool) (now : String)
    (template : Option EmailTemplate) (sheets : List Sheet)
    (eventLog : Grid) (emailLog : Option Grid) : ScanState :=
  let C : ScanCtx :=
    { normW := normW, parseJson := parseJson, recips := recips,
      sendOk := sendOk, now := now, template := template,
      events := eventLog, activeWeeks := teamActiveWeeks normW sheets }
  ((List.range eventLog.length).drop 1).foldl (scanStep C)
    ⟨eventLog, [], 0, emailLog, []⟩

/-- The contribution of event row `i` to the scan's attempt trace. -/
def attemptContrib (C : ScanCtx) (i : Nat) : List (Nat × List String) :=
  if scanQualifies C i = true ∧ scanRecipients C i ≠ [] then
    [(i, scanRecipients C i)]
  else []

/-- How many notification attempts a scan state records for event row
`i`. -/
def countAttempts (st : ScanState) (i : Nat) : Nat :=
  (st.attempts.filter (fun a => a.1 = i)).length

/-- The scan context `scanAndSendAlerts` assembles before its event
loop. -/
def scanCtx (normW : String → String)
    (parseJson : String → List (String × String))
    (recips : String → List String) (sendOk : Nat → Bool) (now : String)
    (template : Option EmailTemplate) (sheets : List Sheet)
    (eventLog : Grid) : ScanCtx :=
  { normW := normW, parseJson := parseJson, recips := recips,
    sendOk := sendOk, now := now, template := template,
    events := eventLog, activeWeeks := teamActiveWeeks normW sheets }

/-! ## RosterSyncEngine (`syncRosterForTeam`) -/

/-- The document state the roster sync touches: the spreadsheet's sheets
and the parsed `teamSyncMap` document property (team → last-synced
`yyyy-MM-dd`). -/
structure DocState where
  sheets : List Sheet
  syncMap : List (String × String)
deriving Repr, DecidableEq

/-- `ss.getSheetByName(n)`. -/
def getSheetByName (sheets : List Sheet) (n : String) : Option Sheet :=
  sheets.find? (fun s => s.name = n)

/-- Apply `f` to the sheet named `n` (if present). -/
def updateSheet (sheets : List Sheet) (n : String) (f : Sheet → Sheet) :
    List Sheet :=
  sheets.map (fun s => if s.name = n then f s else s)

/-- `debugLog(msg)`: append a row to the `DebugLog` sheet, creating it if
missing (the row's leading `Date` cell is elided; the message cell is
kept). -/
def debugLogAppend (sheets : List Sheet) (msg : String) : List Sheet :=
  match getSheetByName sheets "DebugLog" with
  | some _ =>
    updateSheet sheets "DebugLog"
      (fun s => { s with values := s.values ++ [[msg]] })
  | none => sheets ++ [⟨"DebugLog", [[msg]], []⟩]

/-- `pruneDebugLogSheet(maxRows)`: keep the header row and the last
`maxRows` entries. -/
def pruneDebugLogSheet (sheets : List Sheet) (maxRows : Nat) : List Sheet :=
  match getSheetByName sheets "DebugLog" with
  | none => sheets
  | some _ =>
    updateSheet sheets "DebugLog" (fun s =>
      let lastRow := s.values.length
      if lastRow > maxRows + 1 then
        { s with values := s.values.take 1 ++ s.values.drop (lastRow - maxRows) }
      else s)

/-- Add a value to the deduplicating `Set` bound to `key` in the
infraction map (insertion order kept, as a JavaScript `Set`). -/
def addToSet (m : List (String × List String)) (k v : String) :
    List (String × List String) :=
  match m.lookup k with
  | some l => setAssoc m k (if l.contains v then l else l ++ [v])
  | none => setAssoc m k [v]

/-- Stable insertion into a row list ordered by `key` (models the stable
JavaScript `Array.prototype.sort`; `localeCompare` on lowercased
surnames is modeled as code-point order). -/
def insertSorted (key : List String → String) (row : List String) :
    List (List String) → List (List String)
  | [] => [row]
  | r0 :: rest =>
    if key row < key r0 then row :: r0 :: rest
    else r0 :: insertSorted key row rest

/-- Stable sort of rows by `key`. -/
def sortRows (key : List String → String) (l : List (List String)) :
    List (List String) :=
  l.foldl (fun acc r => insertSorted key r acc) []

/-- The body of `syncRosterForTeam` past the synced-today guard: load
template/directory/ledger, build the infraction map, rebuild the team
view wholesale, and record today's date in the sync map.  Formatting
copies and column/row sizing (`copySheetFormattingSafe`), sheet
hiding, and the per-step timer log lines are visual/diagnostic detail
elided here; the trailing debug append and log prune are kept. -/
def syncTeamBody (fmt : String → String) (today teamName : String)
    (st : DocState) : DocState :=
  match getSheetByName st.sheets TEAM_TEMPLATE_NAME with
  | none =>
    -- ERROR: TeamTemplate not found — abort this team (no prune: early return)
    { st with sheets := (debugLogAppend st.sheets
        ("[" ++ teamName ++ "] ERROR: TeamTemplate not found!")) }
  | some template =>
    let students := ((getSheetByName st.sheets "StudentList").map
      rectValues).getD []
    let studentHeaders := students.getD 0 []
    let events := ((getSheetByName st.sheets "EventLog").map rectValues).getD []
    let eventHeaders := events.getD 0 []
    let templateLastCol := sheetWidth template
    let templateHeaders := (List.range 3).map (fun r =>
      (List.range templateLastCol).map (fun c => gcell template.values r c))
    -- build infraction map: (DSID|Infraction|Week) → set of source values
    let infractionMap : List (String × List String) :=
      if events.length > 1 then
        let colDSID := eventHeaders.indexOf? "DSID"
        let colInf := eventHeaders.indexOf? "Infraction"
        let colWeek := eventHeaders.indexOf? "Week"
        let colSV := eventHeaders.indexOf? "Source Value"
        ((List.range events.length).drop 1).foldl (fun m i =>
          let row := events.getD i []
          if getIdx row colDSID = "" ∨ getIdx row colInf = "" ∨
              getIdx row colWeek = "" then m
          else
            let weekFormatted := fmt (getIdx row colWeek)
            let key := String.intercalate "|"
              [getIdx row colDSID, getIdx row colInf, weekFormatted]
            let sv := getIdx row colSV
            addToSet m key (if sv = "" then "X" else sv)) []
      else []
    -- sheet creation/copy from template if absent
    let sheets1 :=
      match getSheetByName st.sheets teamName with
      | some _ => st.sheets
      | none => st.sheets ++
          [{ name := teamName, values := template.values,
             notes := template.notes }]
    -- clear the full region (values only; notes survive `clearContent`)
    -- and rewrite the three template header rows
    let sheets2 := updateSheet sheets1 teamName
      (fun s => { s with values := templateHeaders })
    -- filter this team's students and sort by surname ascending
    let teamIdx := studentHeaders.indexOf? "Team"
    let lastIdx := studentHeaders.indexOf? "Last Name"
    let teamStudents := sortRows
      (fun row => jsLower (getIdx row lastIdx))
      ((((List.range students.length).drop 1).filter (fun i =>
          getIdx (students.getD i []) teamIdx = teamName)).map
        (fun i => students.getD i []))
    -- build the output rows
    let dsidIdx := studentHeaders.indexOf? "DSID"
    let allRows := teamStudents.map (fun student =>
      let row1 := templateHeaders.getD 1 []
      let row2 := templateHeaders.getD 2 []
      let base := (List.range row2.length).foldl (fun dataRow c =>
        let h := row2.getD c ""
        if h = "" then dataRow else
        match studentHeaders.indexOf? h with
        | some idx => dataRow.set c (student.getD idx "")
        | none => dataRow) (List.replicate templateLastCol "")
      let dsid := getIdx student dsidIdx
      (List.range row2.length).foldl (fun dataRow col =>
        let infractionLabel := jsTrim (row1.getD col "")
        let normalizedLabel := jsLower infractionLabel
        if INFRACTION_SEQUENCE.contains normalizedLabel then
          let weekRaw := getWeekForInfractionCol templateHeaders col
          let weekFormatted := fmt weekRaw
          let key := String.intercalate "|" [dsid, infractionLabel, weekFormatted]
          match infractionMap.lookup key with
          | some l =>
            if l.length > 0 then dataRow.set col (String.intercalate "; " l)
            else dataRow
          | none => dataRow
        else dataRow) base)
    -- batch-write the roster rows below the headers (the header rebuild
    -- already removed any leftover rows beyond the new roster length)
    let sheets3 :=
      if allRows.length > 0 then
        updateSheet sheets2 teamName (fun s =>
          { s with values := writeRowsAt s.values FIRST_STUDENT_ROW allRows })
      else sheets2
    -- D1 ← team name
    let sheets4 := updateSheet sheets3 teamName (fun s => s.setValueAt 1 4 teamName)
    -- success: record sync date, log, prune
    let sheets5 := debugLogAppend sheets4
      ("[" ++ teamName ++ "] SUCCESS: Roster synced and timestamp updated.")
    { sheets := pruneDebugLogSheet sheets5 1000,
      syncMap := setAssoc st.syncMap teamName today }

/-- `syncRosterForTeam`: skip (with a log line, and nothing else) when the
sync map already records today's date for this team; otherwise run the
full rebuild.  `today` models `todayStr`
(`Utilities.formatDate(new Date(), …, 'yyyy-MM-dd')`), and `st.syncMap`
the JSON-parsed `teamSyncMap` document property. -/
def syncRosterForTeam (fmt : String → String) (today teamName : String)
    (st : DocState) : DocState :=
  match st.syncMap.lookup teamName with
  | some d =>
    if d = today then
      { st with sheets := (debugLogAppend st.sheets
          ("[" ++ teamName ++ "] Already synced today; skipping.")) }
    else syncTeamBody fmt today teamName st
  | none => syncTeamBody fmt today teamName st

/-! ## Reconciliation-pass key map and invariants -/

/-- The key a ledger row yields under the standard `EventLog` schema. -/
def stdKey (fmt : String → String) (row : List String) : String :=
  rowKey fmt (fun h => stdEventHeaders.indexOf? h) row

/-- The reconciliation pass's final fold state, with the header-derived
column lookup specialised to the standard `EventLog` schema. -/
def pnState (fmt : String → String)
    (serialize : List (String × String) → String) (now : String)
    (sheets : List Sheet) (eventLog : Grid) (students : Grid) : PState :=
  sheets.foldl
    (processSheet (fun h => stdEventHeaders.indexOf? h) now
      serialize fmt students (students.getD 0 []))
    ⟨eventLog, buildEventMap fmt (fun h => stdEventHeaders.indexOf? h)
      eventLog, [], []⟩

/-- Frame invariant of the reconciliation pass: the grid never shrinks
below the original ledger, the original ledger rows are touched only in
the `Source Value` column, and every recorded write is a `Source Value`
write of a genuinely different value. -/
structure PFrame (eventLog : Grid) (st : PState) : Prop where
  glen_lb : eventLog.length ≤ st.grid.length
  frame : ∀ r c, r < eventLog.length → c ≠ 10 →
    gcell st.grid r c = gcell eventLog r c
  wok : ∀ w ∈ st.writes, w.2.1 = 10 ∧ w.2.2.1 ≠ w.2.2.2

/-- Key-map invariant of the reconciliation pass: the grid never shrinks
below the original ledger, every cell outside the `Source Value` column
still reads as it did in the original ledger (rows past the original
length therefore read blank outside that column — in-run writes to
future rows only ever fill `Source Value`), the key map holds truthy row
numbers, every original or pending key is in the map, and the pending
keys are distinct from each other and from the original ledger keys. -/
structure PInv (fmt : String → String) (eventLog : Grid) (st : PState) :
    Prop where
  glen_lb : eventLog.length ≤ st.grid.length
  frame : ∀ r c, c ≠ 10 → gcell st.grid r c = gcell eventLog r c
  mapval : ∀ p ∈ st.eventMap, p.2 ≠ 0
  keymem : ∀ k, k ∈ ledgerKeys fmt eventLog ∨
      k ∈ st.newEvents.map (stdKey fmt) →
    (st.eventMap.lookup k).isSome
  nodupNew : (st.newEvents.map (stdKey fmt)).Nodup
  disj : ∀ k ∈ st.newEvents.map (stdKey fmt), k ∉ ledgerKeys fmt eventLog

/-- A student directory, a team view and a one-event ledger used as
concrete instances of the reconciliation theorems. -/
def wStudents : Grid :=
  [["DSID", "Last Name", "First Name", "Grade", "Team"],
   ["D1", "Doe", "Jo", "9", "TeamA"]]

def wSheet1 : Sheet :=
  ⟨"S1",
   [["", "", "", "", "", "Sep 1"],
    ["", "1st", "2nd", "3rd", "4th", "5th"],
    ["DSID", "", "", "", "", ""],
    ["D1", "X", "", "", "", ""]],
   []⟩

def wLog1 : Grid :=
  [stdEventHeaders,
   ["t", "D1", "Doe", "Jo", "9", "TeamA", "1st", "Week of Sep 1",
    "unknown", "S1", "OLD", "snap", ""]]

/-- A team view with two student rows carrying the same `DSID` and the
same infraction values: each of its two keys is observed twice within
one reconciliation run. -/
def wDupSheet : Sheet :=
  ⟨"S2",
   [["", "", "", "", "", "Sep 1"],
    ["", "1st", "2nd", "3rd", "4th", "5th"],
    ["DSID", "", "", "", "", ""],
    ["D1", "X", "Y", "", "", ""],
    ["D1", "X", "Y", "", "", ""]],
   []⟩

/-- A team view with an active terminal-rank block and a qualifying
terminal-rank ledger row, used as concrete instances of the alert-scan
theorems. -/
def wScanSheet : Sheet :=
  ⟨"T1",
   [["", "active", "", "", "", "Sep 1"],
    ["", "", "1st", "2nd", "3rd", "5th"]],
   []⟩

def wScanEvent : List String :=
  ["t0", "D1", "Doe", "Jo", "9", "TeamA", "5th", "W", "e@x", "T1", "v",
   "", ""]

/-! ## Read-after-write lemmas for grids and sheets -/

theorem getD_replicate {α : Type} (d : α) (k i : Nat) :
    (List.replicate k d).getD i d = d := by
  induction k generalizing i with
  | zero => simp [List.getD]
  | succ k ih =>
    cases i with
    | zero => simp [List.replicate]
    | succ i => simpa [List.replicate] using ih i

theorem getD_append_replicate {α : Type} (l : List α) (d : α) (k i : Nat) :
    (l ++ List.replicate k d).getD i d = l.getD i d := by
  induction l generalizing i with
  | nil => simpa using getD_replicate d k i
  | cons a t ih =>
    cases i with
    | zero => rfl
    | succ i => simpa using ih i

theorem getD_set_self {α : Type} (l : List α) (i : Nat) (v d : α)
    (h : i < l.length) : (l.set i v).getD i d = v := by
  induction l generalizing i with
  | nil => simp at h
  | cons a t ih =>
    cases i with
    | zero => rfl
    | succ i => simpa using ih i (by simpa using h)

theorem getD_set_ne {α : Type} (l : List α) (i j : Nat) (v d : α)
    (h : i ≠ j) : (l.set i v).getD j d = l.getD j d := by
  induction l generalizing i j with
  | nil => simp
  | cons a t ih =>
    cases i with
    | zero => cases j with
      | zero => exact absurd rfl h
      | succ j => rfl
    | succ i =>
      cases j with
      | zero => rfl
      | succ j => simpa using ih i j (by omega)

theorem padRow_getD (l : List String) (n i : Nat) :
    (padRow l n).getD i "" = l.getD i "" :=
  getD_append_replicate l "" _ i

theorem padRow_length_ge (l : List String) (n : Nat) :
    n ≤ (padRow l n).length := by
  simp [padRow]; omega

theorem padGrid_length_ge (g : Grid) (n : Nat) :
    n ≤ (padGrid g n).length := by
  simp [padGrid]; omega

theorem padGrid_getD (g : Grid) (n r : Nat) :
    (padGrid g n).getD r [] = g.getD r [] :=
  getD_append_replicate g [] _ r

theorem gcell_padGrid (g : Grid) (n r c : Nat) :
    gcell (padGrid g n) r c = gcell g r c := by
  unfold gcell
  rw [padGrid_getD]

theorem gcell_gset_self (g : Grid) (r c : Nat) (v : String) :
    gcell (gset g r c v) r c = v := by
  unfold gset gcell
  rw [getD_set_self _ _ _ _ (Nat.lt_of_lt_of_le (Nat.lt_succ_self r) (padGrid_length_ge g (r + 1)))]
  rw [getD_set_self _ _ _ _ (Nat.lt_of_lt_of_le (Nat.lt_succ_self c) (padRow_length_ge _ (c + 1)))]

theorem gcell_gset_ne (g : Grid) (r c r' c' : Nat) (v : String)
    (h : r ≠ r' ∨ c ≠ c') :
    gcell (gset g r' c' v) r c = gcell g r c := by
  unfold gset gcell
  by_cases hr : r' = r
  · subst hr
    have hc : c' ≠ c := by
      rcases h with h | h
      · exact absurd rfl h
      · exact fun hcc => h hcc.symm
    rw [getD_set_self _ _ _ _
      (Nat.lt_of_lt_of_le (Nat.lt_succ_self _) (padGrid_length_ge _ _))]
    rw [getD_set_ne _ _ _ _ _ hc, padRow_getD, padGrid_getD]
  · rw [getD_set_ne _ _ _ _ _ hr, padGrid_getD]

theorem Sheet.cellAt_setValueAt_self (s : Sheet) (r c : Nat) (v : String) :
    (s.setValueAt r c v).cellAt r c = v :=
  gcell_gset_self _ _ _ _

theorem Sheet.cellAt_setValueAt_ne (s : Sheet) (r c r' c' : Nat) (v : String)
    (h : r - 1 ≠ r' - 1 ∨ c - 1 ≠ c' - 1) :
    (s.setValueAt r' c' v).cellAt r c = s.cellAt r c :=
  gcell_gset_ne _ _ _ _ _ _ h

@[simp] theorem Sheet.setValueAt_name (s : Sheet) (r c : Nat) (v : String) :
    (s.setValueAt r c v).name = s.name := rfl

@[simp] theorem Sheet.setValueAt_notes (s : Sheet) (r c : Nat) (v : String) :
    (s.setValueAt r c v).notes = s.notes := rfl

@[simp] theorem Sheet.setNoteAt_name (s : Sheet) (r c : Nat) (v : String) :
    (s.setNoteAt r c v).name = s.name := rfl

@[simp] theorem Sheet.setNoteAt_values (s : Sheet) (r c : Nat) (v : String) :
    (s.setNoteAt r c v).values = s.values := rfl

@[simp] theorem Sheet.cellAt_setNoteAt (s : Sheet) (r c r' c' : Nat)
    (v : String) : (s.setNoteAt r' c' v).cellAt r c = s.cellAt r c := rfl

theorem revertCell_name (s : Sheet) (r c : Nat) (o : Option String) :
    (revertCell s r c o).name = s.name := by
  cases o <;> rfl

theorem revertCell_notes (s : Sheet) (r c : Nat) (o : Option String) :
    (revertCell s r c o).notes = s.notes := by
  cases o <;> rfl

theorem revertCell_cellAt_self (s : Sheet) (r c : Nat) (o : Option String) :
    (revertCell s r c o).cellAt r c = o.getD "" := by
  cases o <;> simp [revertCell, Sheet.cellAt_setValueAt_self]

theorem revertCell_cellAt_ne (s : Sheet) (r c r' c' : Nat) (o : Option String)
    (h : r - 1 ≠ r' - 1 ∨ c - 1 ≠ c' - 1) :
    (revertCell s r' c' o).cellAt r c = s.cellAt r c := by
  cases o <;> simp [revertCell, Sheet.cellAt_setValueAt_ne _ _ _ _ _ _ h]

/-! ## Helper lemmas on trimming and the edit phases -/

theorem not_p_head_dropWhile {α : Type} (p : α → Bool) (l : List α) :
    ∀ a ∈ (l.dropWhile p).head?, p a = false := by
  induction l with
  | nil => simp
  | cons b t ih =>
    by_cases hb : p b
    · simpa [List.dropWhile, hb] using ih
    · simpa [List.dropWhile, hb] using by simpa using hb

theorem dropWhile_eq_self_of_head {α : Type} (p : α → Bool) (l : List α)
    (h : ∀ a ∈ l.head?, p a = false) : l.dropWhile p = l := by
  cases l with
  | nil => rfl
  | cons a t => simp [List.dropWhile, h a (by simp)]

theorem dropWhile_idem {α : Type} (p : α → Bool) (l : List α) :
    (l.dropWhile p).dropWhile p = l.dropWhile p :=
  dropWhile_eq_self_of_head p _ (not_p_head_dropWhile p l)

/-- The trimmed form of a string has no leading whitespace left. -/
theorem jsTrim_no_leading_ws (x : String) :
    (jsTrim x).data.dropWhile Char.isWhitespace = (jsTrim x).data := by
  unfold jsTrim
  set p := fun c : Char => c.isWhitespace with hp
  set y := x.data.dropWhile Char.isWhitespace with hy
  show ((y.reverse.dropWhile p).reverse).dropWhile p =
    (y.reverse.dropWhile p).reverse
  have hsfx : y.reverse.dropWhile p <:+ y.reverse := List.dropWhile_suffix p
  have hpre : (y.reverse.dropWhile p).reverse <+: y := by
    have := List.reverse_prefix.mpr hsfx
    simpa using this
  apply dropWhile_eq_self_of_head
  intro a ha
  obtain ⟨t, ht⟩ := hpre
  cases hz : (y.reverse.dropWhile p).reverse with
  | nil => rw [hz] at ha; simp at ha
  | cons a0 z' =>
    rw [hz] at ha
    simp at ha
    subst ha
    have hyhead : y.head? = some a0 := by
      rw [hz] at ht
      rw [← ht]
      rfl
    have := not_p_head_dropWhile Char.isWhitespace x.data a0
      (by rw [← hy, hyhead]; rfl)
    simpa [hp] using this

theorem jsTrim_idem (x : String) : jsTrim (jsTrim x) = jsTrim x := by
  unfold jsTrim
  congr 1
  rw [show (⟨((x.data.dropWhile Char.isWhitespace).reverse.dropWhile
      Char.isWhitespace).reverse⟩ : String).data =
      ((x.data.dropWhile Char.isWhitespace).reverse.dropWhile
      Char.isWhitespace).reverse from rfl]
  rw [show (((x.data.dropWhile Char.isWhitespace).reverse.dropWhile
      Char.isWhitespace).reverse).dropWhile Char.isWhitespace =
      ((x.data.dropWhile Char.isWhitespace).reverse.dropWhile
      Char.isWhitespace).reverse from jsTrim_no_leading_ws x]
  rw [List.reverse_reverse, dropWhile_idem]

theorem dropWeekOfMarker_week_of (t : String) :
    dropWeekOfMarker ("Week of " ++ t) =
      ⟨t.data.dropWhile Char.isWhitespace⟩ := by
  unfold dropWeekOfMarker
  simp [String.data_append]

theorem jsTrim_drop_week_of_jsTrim (x : String) :
    jsTrim (dropWeekOfMarker ("Week of " ++ jsTrim x)) = jsTrim x := by
  rw [dropWeekOfMarker_week_of]
  rw [show (jsTrim x).data.dropWhile Char.isWhitespace = (jsTrim x).data from
    jsTrim_no_leading_ws x]
  exact jsTrim_idem x

/-- `find?` over `List.range n` returns the least index satisfying the
predicate. -/
theorem find?_range_min {n m : Nat} {p : Nat → Bool}
    (h : (List.range n).find? p = some m) :
    p m = true ∧ m < n ∧ ∀ i, i < m → p i = false := by
  obtain ⟨hp, as, bs, heq, hall⟩ := List.find?_eq_some.mp h
  have hmn : m < n := List.mem_range.mp (by rw [heq]; simp)
  have hlen : as.length < n := by
    have := congrArg List.length heq
    simp at this; omega
  have hm_eq : m = as.length := by
    have h1 : (List.range n)[as.length]? = some m := by
      rw [heq, List.getElem?_append_right (Nat.le_refl _)]
      simp
    rw [List.getElem?_range hlen] at h1
    exact (Option.some_inj.mp h1).symm
  refine ⟨hp, hmn, fun i hi => ?_⟩
  have hias : as[i]? = some i := by
    have h2 : (List.range n)[i]? = some i := List.getElem?_range (by omega)
    rw [heq, List.getElem?_append] at h2
    rw [if_pos (by omega)] at h2
    exact h2
  have := hall i (List.getElem?_mem hias)
  simpa using this

/-- The email check ends in a rejection-with-note or an acceptance. -/
theorem emailPhase_outcome (email : Option String) (nowStr : String)
    (w : WorkingEdit) (row col : Nat) (oldValue : Option String) :
    (emailPhase email nowStr w row col oldValue).outcome = .emailBlocked ∨
    (emailPhase email nowStr w row col oldValue).outcome = .accepted := by
  cases email <;> simp [emailPhase]

/-- A `.inr` exit of the week-block phase is a sequence rejection. -/
theorem rankPhase_inr_outcome (s : Sheet) (row col labelIndex : Nat)
    (newVal : String) (oldValue : Option String) (wb : WeekColumnBlock)
    (r : EditResult)
    (h : rankPhase s row col labelIndex newVal oldValue wb = .inr r) :
    r.outcome = .sequenceBlocked := by
  simp only [rankPhase] at h
  split at h
  · cases h; rfl
  · cases h

/-- When the view resolves no active block, `onEdit` never takes the
window-violation exit: the week guard is simply skipped. -/
theorem onEdit_no_active_block (s : Sheet) (email : Option String)
    (nowStr : String) (row col : Nat) (evalue oldValue : Option String)
    (hnone : getActiveWeekBlockCols s = none) :
    (onEdit email nowStr s row col evalue oldValue).outcome ≠ .blockedWeek := by
  intro hBW
  unfold onEdit at hBW
  rw [hnone] at hBW
  by_cases h1 : EXCLUDE_SHEETS.contains s.name = true
  · rw [if_pos h1] at hBW; simp at hBW
  · rw [if_neg h1] at hBW
    by_cases h2 : row ≤ FIRST_STUDENT_ROW
    · rw [if_pos h2] at hBW; simp at hBW
    · rw [if_neg h2] at hBW
      simp only [if_neg (by simp : ¬ ((false : Bool) = true))] at hBW
      cases hL : List.indexOf? (jsLower (jsTrim (s.cellAt 2 col)))
          INFRACTION_SEQUENCE with
      | none => rw [hL] at hBW; simp at hBW
      | some k =>
        rw [hL] at hBW
        simp only [] at hBW
        generalize hnv : (match evalue with
          | some v => v
          | none => s.cellAt row col) = nv at hBW
        split at hBW
        · simp at hBW
        · cases hF : List.find? (fun block =>
              decide (block.startCol ≤ col ∧ col ≤ block.endCol))
              (getWeekColumnBlocks s) with
          | none =>
            rw [hF] at hBW
            rcases emailPhase_outcome email nowStr ⟨s, col, k, false⟩
                row col oldValue with h | h <;>
              simp only [] at hBW <;> rw [hBW] at h <;> simp at h
          | some wb =>
            rw [hF] at hBW
            simp only [] at hBW
            cases hR : rankPhase s row col k nv oldValue wb with
            | inr r =>
              rw [hR] at hBW
              simp only [] at hBW
              have := rankPhase_inr_outcome _ _ _ _ _ _ _ _ hR
              rw [hBW] at this; simp at this
            | inl w =>
              rw [hR] at hBW
              simp only [] at hBW
              rcases emailPhase_outcome email nowStr w row col oldValue
                  with h | h <;> rw [hBW] at h <;> simp at h

/-- Whenever the marker lookup yields an active-week label and the view
is at least five columns wide, the block lookup resolves a block: the
two active-week paths cannot disagree. -/
theorem active_paths_agree (s : Sheet) (w : String)
    (hw : getActiveWeekForSheet s = some w) (hwidth : 5 ≤ sheetWidth s) :
    (getActiveWeekBlockCols s).isSome := by
  unfold getActiveWeekForSheet at hw
  simp only [] at hw
  cases hFS : (List.range (sheetWidth s)).findSome?
      (activeResultAt (s.values.getD 0 []) (s.values.getD 1 [])
        (sheetWidth s)) with
  | none => rw [hFS] at hw; simp at hw
  | some r =>
    rw [hFS] at hw
    simp only [] at hw
    subst hw
    obtain ⟨c, hcmem, hc⟩ := List.exists_of_findSome?_eq_some hFS
    unfold activeResultAt at hc
    split at hc
    case isFalse => simp at hc
    case isTrue hmark =>
      cases hFind : (List.range (sheetWidth s)).find? (fun cc =>
          decide (c + 1 ≤ cc ∧
            jsTrim ((s.values.getD 1 []).getD cc "") = "5th")) with
      | none => rw [hFind] at hc; simp at hc
      | some cc =>
        rw [hFind] at hc
        simp only [] at hc
        have hpred := List.find?_some hFind
        have hccmem := List.mem_of_find?_eq_some hFind
        simp at hpred
        split at hc
        case isFalse => simp at hc
        case isTrue hne =>
          have hw' : w = "Week of " ++
              jsTrim ((s.values.getD 0 []).getD cc "") := by
            injection hc with hc'
            injection hc' with hc''
            exact hc''.symm
          unfold getActiveWeekBlockCols
          rw [if_neg (by omega)]
          rw [show getActiveWeekForSheet s = some w from ?side]
          case side =>
            unfold getActiveWeekForSheet
            simp only []
            rw [hFS]
          simp only []
          have hwd : jsTrim (dropWeekOfMarker w) =
              jsTrim ((s.values.getD 0 []).getD cc "") := by
            rw [hw', jsTrim_drop_week_of_jsTrim]
          rw [hwd]
          cases hF2 : (List.range (sheetWidth s)).find? (fun c' =>
              decide (jsTrim ((s.values.getD 1 []).getD c' "") = "5th" ∧
                jsTrim ((s.values.getD 0 []).getD c' "") =
                  jsTrim ((s.values.getD 0 []).getD cc ""))) with
          | some c' => simp
          | none =>
            exfalso
            have := List.find?_eq_none.mp hF2 cc hccmem
            simp at this
            exact this hpred.2

/-! ## Lemmas for the reconciliation pass -/

theorem lookup_setAssoc {β : Type} (m : List (String × β)) (k k' : String)
    (v : β) :
    (setAssoc m k v).lookup k' = if k' = k then some v else m.lookup k' := by
  induction m with
  | nil =>
    simp only [setAssoc, List.lookup]
    by_cases h : k' = k
    · simp [h]
    · have hb : (k' == k) = false := beq_eq_false_iff_ne.mpr h
      simp [hb, h]
  | cons p rest ih =>
    obtain ⟨k0, v0⟩ := p
    simp only [setAssoc]
    by_cases h0 : k0 = k
    · subst h0
      rw [if_pos rfl]
      by_cases h' : k' = k0
      · rw [if_pos h']
        simp [List.lookup, h']
      · rw [if_neg h']
        have hb : (k' == k0) = false := beq_eq_false_iff_ne.mpr h'
        simp [List.lookup, hb]
    · rw [if_neg h0]
      by_cases h1 : k' = k0
      · subst h1
        rw [if_neg h0]
        simp [List.lookup]
      · have hb : (k' == k0) = false := beq_eq_false_iff_ne.mpr h1
        simp only [List.lookup, hb]
        exact ih

theorem map_range_getD (l : Grid) :
    (List.range l.length).map (fun i => l.getD i []) = l := by
  induction l with
  | nil => simp
  | cons a t ih =>
    rw [show (a :: t).length = t.length + 1 from rfl, List.range_succ_eq_map]
    simp only [List.map_cons, List.map_map]
    refine congrArg (a :: ·) ?_
    have hcomp : ((fun i => (a :: t).getD i []) ∘ Nat.succ) =
        (fun i => t.getD i []) := rfl
    rw [hcomp]
    exact ih

theorem drop1_map_eq_range_map (g : Grid) (f : List String → String) :
    (g.drop 1).map f =
      ((List.range g.length).drop 1).map (fun i => f (g.getD i [])) := by
  cases g with
  | nil => simp
  | cons hd tl =>
    rw [show (hd :: tl).length = tl.length + 1 from rfl, List.range_succ_eq_map]
    simp only [List.drop_succ_cons, List.drop_zero, List.map_map]
    have := map_range_getD tl
    calc tl.map f = ((List.range tl.length).map (fun i => tl.getD i [])).map f := by rw [this]
    _ = (List.range tl.length).map (fun i => f (tl.getD i [])) := by rw [List.map_map]; rfl
    _ = (List.range tl.length).map ((fun i => f ((hd :: tl).getD i [])) ∘ Nat.succ) := rfl

theorem foldl_preserve_mem {α β : Type} (P : α → Prop) (f : α → β → α)
    (l : List β) (a0 : α) (hstep : ∀ a b, b ∈ l → P a → P (f a b))
    (h0 : P a0) : P (l.foldl f a0) := by
  induction l generalizing a0 with
  | nil => exact h0
  | cons b t ih =>
    exact ih (f a0 b)
      (fun a b' hb' ha => hstep a b' (List.mem_cons_of_mem _ hb') ha)
      (hstep a0 b (List.mem_cons_self _ _) h0)

theorem setAssoc_forall {β : Type} (P : β → Prop) (m : List (String × β))
    (k : String) (v : β) (hm : ∀ p ∈ m, P p.2) (hv : P v) :
    ∀ p ∈ setAssoc m k v, P p.2 := by
  induction m with
  | nil =>
    intro p hp
    simp only [setAssoc, List.mem_singleton] at hp
    rw [hp]
    exact hv
  | cons q rest ih =>
    obtain ⟨k0, v0⟩ := q
    intro p hp
    simp only [setAssoc] at hp
    by_cases h : k0 = k
    · rw [if_pos h] at hp
      rcases List.mem_cons.mp hp with h1 | h1
      · rw [h1]; exact hv
      · exact hm p (List.mem_cons_of_mem _ h1)
    · rw [if_neg h] at hp
      rcases List.mem_cons.mp hp with h1 | h1
      · rw [h1]; exact hm (k0, v0) (List.mem_cons_self _ _)
      · exact ih (fun q hq => hm q (List.mem_cons_of_mem _ hq)) p h1

theorem lookup_forall {β : Type} (P : β → Prop) (m : List (String × β))
    (k : String) (v : β) (hm : ∀ p ∈ m, P p.2)
    (hl : m.lookup k = some v) : P v := by
  induction m with
  | nil => simp [List.lookup] at hl
  | cons q rest ih =>
    obtain ⟨k0, v0⟩ := q
    by_cases h : k = k0
    · have hb : (k == k0) = true := beq_iff_eq.mpr h
      simp only [List.lookup, hb] at hl
      injection hl with h1
      rw [← h1]
      exact (hm (k0, v0) (List.mem_cons_self _ _) : P v0)
    · have hb : (k == k0) = false := beq_eq_false_iff_ne.mpr h
      simp only [List.lookup, hb] at hl
      exact ih (fun q hq => hm q (List.mem_cons_of_mem _ hq)) hl

theorem mapTruthy_eq_some {m : List (String × Nat)} {k : String} {n : Nat}
    (h : mapTruthy m k = some n) : m.lookup k = some n := by
  unfold mapTruthy at h
  split at h
  · rename_i v hl
    split at h
    · injection h with h1
      rw [hl, h1]
    · cases h
  · cases h

theorem mapTruthy_eq_none {m : List (String × Nat)} {k : String}
    (good : ∀ p ∈ m, p.2 ≠ 0) (h : mapTruthy m k = none) :
    m.lookup k = none := by
  unfold mapTruthy at h
  split at h
  · rename_i v hl
    have hv : v ≠ 0 := lookup_forall (fun x => x ≠ 0) m k v good hl
    rw [if_pos hv] at h
    cases h
  · rename_i hl
    exact hl

theorem lookup_foldl_setAssoc {β : Type} (keyOf : Nat → String)
    (val : Nat → β) (l : List Nat) (m0 : List (String × β)) (k : String)
    (h : k ∈ l.map keyOf ∨ (m0.lookup k).isSome) :
    ((l.foldl (fun m i => setAssoc m (keyOf i) (val i)) m0).lookup k).isSome := by
  induction l generalizing m0 with
  | nil =>
    rcases h with h | h
    · simp at h
    · simpa using h
  | cons i t ih =>
    simp only [List.foldl_cons]
    apply ih
    rcases h with hmem | hsome
    · rw [List.map_cons, List.mem_cons] at hmem
      rcases hmem with heq | hmem
      · right
        rw [lookup_setAssoc, if_pos heq]
        simp
      · left; exact hmem
    · right
      rw [lookup_setAssoc]
      by_cases hk : k = keyOf i
      · rw [if_pos hk]; simp
      · rw [if_neg hk]; exact hsome

theorem padGrid_length_self_ge (g : Grid) (n : Nat) :
    g.length ≤ (padGrid g n).length := by
  unfold padGrid
  rw [List.length_append]
  omega

theorem padGrid_length_le (g : Grid) (n k : Nat) (h1 : g.length ≤ k)
    (h2 : n ≤ k) : (padGrid g n).length ≤ k := by
  unfold padGrid
  rw [List.length_append, List.length_replicate]
  omega

theorem gset_length_ge (g : Grid) (r c : Nat) (v : String) :
    g.length ≤ (gset g r c v).length := by
  unfold gset
  simp only []
  rw [List.length_set]
  exact padGrid_length_self_ge g (r + 1)

theorem gset_length_le (g : Grid) (r c : Nat) (v : String) (k : Nat)
    (h1 : g.length ≤ k) (h2 : r + 1 ≤ k) : (gset g r c v).length ≤ k := by
  unfold gset
  simp only []
  rw [List.length_set]
  exact padGrid_length_le g (r + 1) k h1 h2

theorem getD_gsetRow_ne (g : Grid) (s : Nat) (row : List String) (r : Nat)
    (h : r ≠ s) : (gsetRow g s row).getD r [] = g.getD r [] := by
  unfold gsetRow
  rw [getD_set_ne _ _ _ _ _ (fun hh => h hh.symm), padGrid_getD]

theorem writeRowsAt_getD_lt (g : Grid) (start : Nat) (rows : List (List String))
    (r : Nat) (h : r < start) :
    (writeRowsAt g start rows).getD r [] = g.getD r [] := by
  induction rows generalizing g start with
  | nil => rfl
  | cons row rest ih =>
    unfold writeRowsAt
    rw [ih _ _ (by omega), getD_gsetRow_ne _ _ _ _ (by omega)]

theorem mem_drop1_range (n i : Nat) :
    i ∈ (List.range n).drop 1 ↔ 1 ≤ i ∧ i < n := by
  cases n with
  | zero => simp
  | succ m =>
    rw [List.range_succ_eq_map]
    simp only [List.drop_succ_cons, List.drop_zero, List.mem_map]
    constructor
    · rintro ⟨j, hj, rfl⟩
      have := List.mem_range.mp hj
      omega
    · rintro ⟨h1, h2⟩
      exact ⟨i - 1, List.mem_range.mpr (by omega), by omega⟩

theorem stdKey_eq (fmt : String → String) (row : List String) :
    stdKey fmt row = String.intercalate "|"
      [row.getD 1 "", row.getD 6 "", fmt (row.getD 7 "")] := rfl

theorem ledgerKeys_eq_map_stdKey (fmt : String → String) (g : Grid) :
    ledgerKeys fmt g = (g.drop 1).map (stdKey fmt) := rfl

theorem getD_gsetRow_self (g : Grid) (s : Nat) (row : List String) :
    (gsetRow g s row).getD s [] = row := by
  unfold gsetRow
  exact getD_set_self _ _ _ _
    (Nat.lt_of_lt_of_le (Nat.lt_succ_self s) (padGrid_length_ge g (s + 1)))

theorem gsetRow_length_lb (g : Grid) (s : Nat) (row : List String) :
    s + 1 ≤ (gsetRow g s row).length := by
  unfold gsetRow
  rw [List.length_set]
  exact padGrid_length_ge g (s + 1)

theorem gsetRow_length_le (g : Grid) (s : Nat) (row : List String) (k : Nat)
    (h1 : g.length ≤ k) (h2 : s + 1 ≤ k) : (gsetRow g s row).length ≤ k := by
  unfold gsetRow
  rw [List.length_set]
  exact padGrid_length_le g (s + 1) k h1 h2

theorem writeRowsAt_length (g : Grid) (start : Nat)
    (rows : List (List String)) (h1 : start ≤ g.length)
    (h2 : g.length ≤ start + rows.length) :
    (writeRowsAt g start rows).length = start + rows.length := by
  induction rows generalizing g start with
  | nil =>
    unfold writeRowsAt
    have h0 : ([] : List (List String)).length = 0 := rfl
    omega
  | cons row rest ih =>
    unfold writeRowsAt
    rw [ih (gsetRow g start row) (start + 1) (gsetRow_length_lb g start row)
      (gsetRow_length_le g start row _
        (by simp only [List.length_cons] at h2; omega) (by omega))]
    simp only [List.length_cons]
    omega

theorem writeRowsAt_getD_ge (g : Grid) (start : Nat)
    (rows : List (List String)) (j : Nat) (hj : j < rows.length) :
    (writeRowsAt g start rows).getD (start + j) [] = rows.getD j [] := by
  induction rows generalizing g start j with
  | nil => cases hj
  | cons row rest ih =>
    unfold writeRowsAt
    cases j with
    | zero =>
      rw [writeRowsAt_getD_lt _ _ _ _ (by omega),
        show start + 0 = start from rfl, getD_gsetRow_self]
      rfl
    | succ j =>
      rw [show start + (j + 1) = (start + 1) + j from by omega,
        ih _ _ j (by simpa using hj)]
      rfl

theorem observeCell_frame (eventLog : Grid) (now : String)
    (serialize : List (String × String) → String) (sheetName : String)
    (studentData : List (String × String))
    (dsid infractionNum week value note : String) (st : PState)
    (hin : PFrame eventLog st) :
    PFrame eventLog (observeCell (fun h => stdEventHeaders.indexOf? h)
      now serialize sheetName studentData dsid infractionNum week
      value note st) := by
  unfold observeCell
  simp only [show (fun h => stdEventHeaders.indexOf? h) "Source Value" =
    some 10 from by decide]
  cases hmt : mapTruthy st.eventMap
      (String.intercalate "|" [dsid, infractionNum, week]) with
  | some rowIdx =>
    show PFrame eventLog (if gcell st.grid (rowIdx - 1) 10 ≠ value then
      { st with grid := gset st.grid (rowIdx - 1) 10 value,
                writes := st.writes ++
                  [(rowIdx - 1, 10, gcell st.grid (rowIdx - 1) 10, value)] }
      else st)
    by_cases hne : gcell st.grid (rowIdx - 1) 10 ≠ value
    · rw [if_pos hne]
      refine ⟨?_, ?_, ?_⟩
      · exact Nat.le_trans hin.glen_lb (gset_length_ge _ _ _ _)
      · intro r c hr hc
        show gcell (gset st.grid (rowIdx - 1) 10 value) r c = _
        rw [gcell_gset_ne _ _ _ _ _ _ (Or.inr hc)]
        exact hin.frame r c hr hc
      · intro w hw
        replace hw : w ∈ st.writes ++
            [(rowIdx - 1, 10, gcell st.grid (rowIdx - 1) 10, value)] := hw
        rcases List.mem_append.mp hw with hw | hw
        · exact hin.wok w hw
        · rw [List.mem_singleton] at hw
          subst hw
          exact ⟨rfl, hne⟩
    · rw [if_neg hne]
      exact ⟨hin.glen_lb, hin.frame, hin.wok⟩
  | none => exact ⟨hin.glen_lb, hin.frame, hin.wok⟩

theorem processRow_pres (P : PState → Prop) (ecol : String → Option Nat)
    (now : String)
    (serialize : List (String × String) → String) (fmt : String → String)
    (students : Grid) (studentHeaders : List String) (sheet : Sheet)
    (data : Grid) (sheetHeaders : List String) (dsidIdx : Nat)
    (infractionCols : List Nat)
    (hobs : ∀ sn sd dsid inf wk v note st, P st →
      P (observeCell ecol now serialize sn sd dsid inf (fmt wk) v
        note st))
    (st : PState) (r : Nat) (hP : P st) :
    P (processRow ecol now serialize fmt students studentHeaders
        sheet data sheetHeaders dsidIdx infractionCols st r) := by
  unfold processRow
  simp only []
  split
  · exact hP
  · apply foldl_preserve_mem P _ _ _ _ hP
    intro st' infCol hmem hP'
    split
    · exact hP'
    · exact hobs _ _ _ _ _ _ _ _ hP'

theorem processSheet_pres (P : PState → Prop) (ecol : String → Option Nat)
    (now : String)
    (serialize : List (String × String) → String) (fmt : String → String)
    (students : Grid) (studentHeaders : List String)
    (hobs : ∀ sn sd dsid inf wk v note st, P st →
      P (observeCell ecol now serialize sn sd dsid inf (fmt wk) v
        note st))
    (st : PState) (sheet : Sheet) (hP : P st) :
    P (processSheet ecol now serialize fmt students studentHeaders
        st sheet) := by
  unfold processSheet
  split
  · exact hP
  · simp only []
    split
    · exact hP
    · split
      · exact hP
      · apply foldl_preserve_mem P _ _ _ _ hP
        intro st' r hmem hP'
        exact processRow_pres P ecol now serialize fmt students
          studentHeaders _ _ _ _ _ hobs st' r hP'

theorem processNewEvents_eq (fmt : String → String)
    (serialize : List (String × String) → String) (now : String)
    (sheets : List Sheet) (eventLog : Grid) (students : Grid)
    (hhead : eventLog.getD 0 [] = stdEventHeaders) :
    processNewEvents fmt serialize now sheets eventLog students =
      (writeRowsAt (pnState fmt serialize now sheets eventLog students).grid
        (pnState fmt serialize now sheets eventLog students).grid.length
        (pnState fmt serialize now sheets eventLog students).newEvents,
       (pnState fmt serialize now sheets eventLog students).writes) := by
  unfold processNewEvents pnState
  rw [hhead]

theorem pnState_pres (P : PState → Prop) (fmt : String → String)
    (serialize : List (String × String) → String) (now : String)
    (sheets : List Sheet) (eventLog : Grid) (students : Grid)
    (hobs : ∀ sn sd dsid inf wk v note st, P st →
      P (observeCell (fun h => stdEventHeaders.indexOf? h)
        now serialize sn sd dsid inf (fmt wk) v note st))
    (h0 : P ⟨eventLog, buildEventMap fmt
      (fun h => stdEventHeaders.indexOf? h) eventLog, [], []⟩) :
    P (pnState fmt serialize now sheets eventLog students) := by
  unfold pnState
  apply foldl_preserve_mem P _ _ _ _ h0
  intro st sheet hmem hP
  exact processSheet_pres P _ _ _ _ _ _ hobs st sheet hP

theorem observeCell_inv (fmt : String → String) (eventLog : Grid)
    (now : String) (serialize : List (String × String) → String)
    (sheetName : String) (studentData : List (String × String))
    (dsid infractionNum week value note : String) (st : PState)
    (hweek : fmt week = week)
    (hin : PInv fmt eventLog st) :
    PInv fmt eventLog (observeCell (fun h => stdEventHeaders.indexOf? h)
      now serialize sheetName studentData dsid infractionNum
      week value note st) := by
  unfold observeCell
  simp only [show (fun h => stdEventHeaders.indexOf? h) "Source Value" =
    some 10 from by decide]
  cases hmt : mapTruthy st.eventMap
      (String.intercalate "|" [dsid, infractionNum, week]) with
  | some rowIdx =>
    show PInv fmt eventLog (if gcell st.grid (rowIdx - 1) 10 ≠ value then
      { st with grid := gset st.grid (rowIdx - 1) 10 value,
                writes := st.writes ++
                  [(rowIdx - 1, 10, gcell st.grid (rowIdx - 1) 10, value)] }
      else st)
    by_cases hne : gcell st.grid (rowIdx - 1) 10 ≠ value
    · rw [if_pos hne]
      refine ⟨?_, ?_, hin.mapval, hin.keymem, hin.nodupNew, hin.disj⟩
      · exact Nat.le_trans hin.glen_lb (gset_length_ge _ _ _ _)
      · intro r c hc
        show gcell (gset st.grid (rowIdx - 1) 10 value) r c = _
        rw [gcell_gset_ne _ _ _ _ _ _ (Or.inr hc)]
        exact hin.frame r c hc
    · rw [if_neg hne]
      exact hin
  | none =>
    have hlkn := mapTruthy_eq_none hin.mapval hmt
    have hnotin1 :
        String.intercalate "|" [dsid, infractionNum, week] ∉
          ledgerKeys fmt eventLog := by
      intro hmem
      have := hin.keymem _ (Or.inl hmem)
      rw [hlkn] at this
      cases this
    have hnotin2 :
        String.intercalate "|" [dsid, infractionNum, week] ∉
          st.newEvents.map (stdKey fmt) := by
      intro hmem
      have := hin.keymem _ (Or.inr hmem)
      rw [hlkn] at this
      cases this
    show PInv fmt eventLog
      { st with
        newEvents := st.newEvents ++
          [[now, dsid, assocGet studentData "Last Name",
            assocGet studentData "First Name", assocGet studentData "Grade",
            assocGet studentData "Team", infractionNum, week,
            parseEnteredBy note, sheetName, value, serialize studentData,
            ""]],
        eventMap := setAssoc st.eventMap
          (String.intercalate "|" [dsid, infractionNum, week])
          (st.grid.length + (st.newEvents ++
            [[now, dsid, assocGet studentData "Last Name",
              assocGet studentData "First Name",
              assocGet studentData "Grade", assocGet studentData "Team",
              infractionNum, week, parseEnteredBy note, sheetName, value,
              serialize studentData, ""]]).length) }
    have hknr : stdKey fmt
        [now, dsid, assocGet studentData "Last Name",
         assocGet studentData "First Name", assocGet studentData "Grade",
         assocGet studentData "Team", infractionNum, week,
         parseEnteredBy note, sheetName, value, serialize studentData, ""] =
        String.intercalate "|" [dsid, infractionNum, week] := by
      rw [stdKey_eq]
      show String.intercalate "|" [dsid, infractionNum, fmt week] = _
      rw [hweek]
    refine ⟨hin.glen_lb, hin.frame, ?_, ?_, ?_, ?_⟩
    · apply setAssoc_forall (fun v => v ≠ 0) st.eventMap _ _ hin.mapval
      rw [List.length_append, List.length_singleton]
      omega
    · intro k hk
      rw [lookup_setAssoc]
      by_cases hkk : k = String.intercalate "|" [dsid, infractionNum, week]
      · rw [if_pos hkk]
        simp
      · rw [if_neg hkk]
        apply hin.keymem
        rcases hk with hk | hk
        · exact Or.inl hk
        · rw [List.map_append] at hk
          rcases List.mem_append.mp hk with hk | hk
          · exact Or.inr hk
          · rw [List.map_singleton, List.mem_singleton, hknr] at hk
            exact absurd hk hkk
    · show ((st.newEvents ++ _).map (stdKey fmt)).Nodup
      rw [List.map_append, List.map_singleton]
      rw [List.nodup_append]
      refine ⟨hin.nodupNew, List.nodup_singleton _, ?_⟩
      intro a ha ha'
      rw [List.mem_singleton, hknr] at ha'
      rw [ha'] at ha
      exact hnotin2 ha
    · intro k hk
      rw [List.map_append, List.map_singleton] at hk
      rcases List.mem_append.mp hk with hk | hk
      · exact hin.disj k hk
      · rw [List.mem_singleton, hknr] at hk
        rw [hk]
        exact hnotin1

theorem buildEventMap_mapval (fmt : String → String) (eventLog : Grid) :
    ∀ p ∈ buildEventMap fmt (fun h => stdEventHeaders.indexOf? h) eventLog,
      p.2 ≠ 0 := by
  unfold buildEventMap
  apply foldl_preserve_mem
    (fun m : List (String × Nat) => ∀ p ∈ m, p.2 ≠ 0)
  · intro m i hi hm
    apply setAssoc_forall (fun v => v ≠ 0) m _ _ hm
    omega
  · intro p hp
    cases hp

theorem buildEventMap_keymem (fmt : String → String) (eventLog : Grid)
    (k : String) (hk : k ∈ ledgerKeys fmt eventLog) :
    ((buildEventMap fmt (fun h => stdEventHeaders.indexOf? h)
      eventLog).lookup k).isSome := by
  rw [ledgerKeys_eq_map_stdKey, drop1_map_eq_range_map] at hk
  unfold buildEventMap
  exact lookup_foldl_setAssoc (fun i => stdKey fmt (eventLog.getD i []))
    (fun i => i + 1) ((List.range eventLog.length).drop 1) [] k (Or.inl hk)

theorem pnState_inv (fmt : String → String)
    (serialize : List (String × String) → String) (now : String)
    (sheets : List Sheet) (eventLog : Grid) (students : Grid)
    (hfmt : ∀ w, fmt (fmt w) = fmt w) :
    PInv fmt eventLog (pnState fmt serialize now sheets eventLog students) := by
  apply pnState_pres _ fmt serialize now sheets eventLog students
  · intro sn sd dsid inf wk v note st hP
    exact observeCell_inv fmt eventLog now serialize sn sd dsid inf (fmt wk)
      v note st (hfmt wk) hP
  · refine ⟨Nat.le_refl _, fun r c _ => rfl,
      buildEventMap_mapval fmt eventLog, ?_, List.nodup_nil, ?_⟩
    · intro k hk
      rcases hk with hk | hk
      · exact buildEventMap_keymem fmt eventLog k hk
      · cases hk
    · intro k hk
      cases hk

/-! ## Lemmas for the alert scan -/

theorem scanStep_of_qual_false (C : ScanCtx) (st : ScanState) (i : Nat)
    (h : scanQualifies C i = false) : scanStep C st i = st := by
  unfold scanStep
  rw [h]
  rfl

theorem scanStep_components (C : ScanCtx) (st : ScanState) (i : Nat) :
    (scanStep C st i).attempts = st.attempts ++ attemptContrib C i ∧
    (scanStep C st i).grid = (if scanQualifies C i = true then
      (match (C.events.getD 0 []).indexOf? "Alerted" with
       | some a => gset st.grid i a C.now
       | none => st.grid) else st.grid) ∧
    (scanStep C st i).audits = st.audits ++
      (if scanQualifies C i = true ∧ st.emailLog.isSome = true then [i]
       else []) ∧
    (scanStep C st i).emailLog.isSome = st.emailLog.isSome := by
  by_cases hq : scanQualifies C i = true
  · unfold scanStep
    rw [hq]
    simp only [if_true]
    by_cases hr : scanRecipients C i ≠ []
    · have hpos : scanQualifies C i = true ∧ scanRecipients C i ≠ [] :=
        And.intro hq hr
      rw [if_pos hr]
      try dsimp only
      rcases hlg : st.emailLog with _ | lg
      · exact ⟨(by unfold attemptContrib; rw [if_pos hpos]), rfl,
          (by simp), rfl⟩
      · exact ⟨(by unfold attemptContrib; rw [if_pos hpos]), rfl,
          (by simp), rfl⟩
    · have hneg : ¬(scanQualifies C i = true ∧ scanRecipients C i ≠ []) :=
        fun hc => hr hc.2
      rw [if_neg hr]
      try dsimp only
      rcases hlg : st.emailLog with _ | lg
      · exact ⟨(by unfold attemptContrib; rw [if_neg hneg, List.append_nil]),
          rfl, (by simp), rfl⟩
      · exact ⟨(by unfold attemptContrib; rw [if_neg hneg, List.append_nil]),
          rfl, (by simp), rfl⟩
  · have hq' : scanQualifies C i = false := by
      cases hrq : scanQualifies C i
      · rfl
      · exact absurd hrq hq
    have hneg : ¬(scanQualifies C i = true ∧ scanRecipients C i ≠ []) :=
      fun hc => hq hc.1
    have hneg2 : ¬(scanQualifies C i = true ∧ st.emailLog.isSome = true) :=
      fun hc => hq hc.1
    rw [scanStep_of_qual_false C st i hq']
    unfold attemptContrib
    rw [if_neg hneg, if_neg hq, if_neg hneg2, List.append_nil,
      List.append_nil]
    exact ⟨rfl, rfl, rfl, rfl⟩

theorem getD_gset_row_ne (g : Grid) (i c : Nat) (v : String) (r : Nat)
    (h : r ≠ i) : (gset g i c v).getD r [] = g.getD r [] := by
  unfold gset
  simp only []
  rw [getD_set_ne _ _ _ _ _ (fun hh => h hh.symm), padGrid_getD]

theorem scan_foldl_attempts (C : ScanCtx) (l : List Nat) (st : ScanState) :
    (l.foldl (scanStep C) st).attempts =
      st.attempts ++ l.flatMap (attemptContrib C) := by
  induction l generalizing st with
  | nil => simp
  | cons i t ih =>
    rw [List.foldl_cons, ih, (scanStep_components C st i).1,
      List.flatMap_cons, List.append_assoc]

theorem scan_foldl_emailLog (C : ScanCtx) (l : List Nat) (st : ScanState) :
    (l.foldl (scanStep C) st).emailLog.isSome = st.emailLog.isSome := by
  induction l generalizing st with
  | nil => rfl
  | cons i t ih =>
    rw [List.foldl_cons, ih, (scanStep_components C st i).2.2.2]

theorem scan_foldl_audits (C : ScanCtx) (l : List Nat) (st : ScanState) :
    (l.foldl (scanStep C) st).audits = st.audits ++
      (if st.emailLog.isSome = true then
        l.filter (fun i => scanQualifies C i) else []) := by
  induction l generalizing st with
  | nil => simp
  | cons i t ih =>
    rw [List.foldl_cons, ih, (scanStep_components C st i).2.2.2,
      (scanStep_components C st i).2.2.1, List.filter_cons]
    by_cases hs : st.emailLog.isSome = true
    · rw [if_pos hs]
      by_cases hqi : scanQualifies C i = true
      · rw [if_pos ⟨hqi, hs⟩, if_pos hqi, if_pos hs, List.append_assoc]
        rfl
      · have hqi' : scanQualifies C i = false := by
          cases hrq : scanQualifies C i
          · rfl
          · exact absurd hrq hqi
        rw [if_neg (fun hc => hqi hc.1), hqi', if_neg (Bool.false_ne_true),
          List.append_nil, if_pos hs]
    · rw [if_neg hs, if_neg (fun hc => hs hc.2), if_neg hs,
        List.append_nil, List.append_nil]

theorem scan_foldl_gcell (C : ScanCtx)
    (hhead : C.events.getD 0 [] = stdEventHeaders) (l : List Nat)
    (st : ScanState) (r c : Nat) :
    gcell (l.foldl (scanStep C) st).grid r c =
      if r ∈ l ∧ scanQualifies C r = true ∧ c = 12 then C.now
      else gcell st.grid r c := by
  induction l generalizing st with
  | nil => simp
  | cons i t ih =>
    rw [List.foldl_cons, ih]
    have hg := (scanStep_components C st i).2.1
    rw [hhead] at hg
    simp only [show stdEventHeaders.indexOf? "Alerted" = some 12 from
      by decide] at hg
    by_cases hmem : r ∈ i :: t ∧ scanQualifies C r = true ∧ c = 12
    · rw [if_pos hmem]
      obtain ⟨hm, hqr, hc⟩ := hmem
      by_cases hrt : r ∈ t ∧ scanQualifies C r = true ∧ c = 12
      · rw [if_pos hrt]
      · rw [if_neg hrt]
        have hri : r = i := by
          rcases List.mem_cons.mp hm with h | h
          · exact h
          · exact absurd ⟨h, hqr, hc⟩ hrt
        subst hri
        rw [hg, if_pos hqr, hc]
        exact gcell_gset_self st.grid r 12 C.now
    · rw [if_neg hmem]
      have hrt : ¬(r ∈ t ∧ scanQualifies C r = true ∧ c = 12) :=
        fun hc2 => hmem ⟨List.mem_cons_of_mem _ hc2.1, hc2.2⟩
      rw [if_neg hrt, hg]
      by_cases hqi : scanQualifies C i = true
      · rw [if_pos hqi]
        apply gcell_gset_ne
        by_cases hri : r = i
        · refine Or.inr (fun hc12 => hmem ⟨?_, ?_, hc12⟩)
          · rw [hri]
            exact List.mem_cons_self _ _
          · rw [hri]
            exact hqi
        · exact Or.inl hri
      · rw [if_neg hqi]

theorem scan_foldl_getD_row (C : ScanCtx)
    (hhead : C.events.getD 0 [] = stdEventHeaders) (l : List Nat)
    (st : ScanState) (r : Nat) (hr : ∀ i ∈ l, i ≠ r) :
    (l.foldl (scanStep C) st).grid.getD r [] = st.grid.getD r [] := by
  induction l generalizing st with
  | nil => rfl
  | cons i t ih =>
    rw [List.foldl_cons, ih _ (fun j hj => hr j (List.mem_cons_of_mem _ hj))]
    have hg := (scanStep_components C st i).2.1
    rw [hhead] at hg
    simp only [show stdEventHeaders.indexOf? "Alerted" = some 12 from
      by decide] at hg
    rw [hg]
    by_cases hqi : scanQualifies C i = true
    · rw [if_pos hqi]
      exact getD_gset_row_ne st.grid i 12 C.now r
        (fun hh => hr i (List.mem_cons_self _ _) hh.symm)
    · rw [if_neg hqi]

theorem contrib_filter_self (C : ScanCtx) (i : Nat) :
    (attemptContrib C i).filter (fun a => a.1 = i) = attemptContrib C i := by
  unfold attemptContrib
  split
  · simp
  · rfl

theorem contrib_filter_ne (C : ScanCtx) (i j : Nat) (h : i ≠ j) :
    (attemptContrib C i).filter (fun a => a.1 = j) = [] := by
  unfold attemptContrib
  split
  · simp [h]
  · rfl

theorem count_flatMap_contrib (C : ScanCtx) (l : List Nat) (i : Nat)
    (hnd : l.Nodup) :
    ((l.flatMap (attemptContrib C)).filter (fun a => a.1 = i)).length =
      if i ∈ l then (attemptContrib C i).length else 0 := by
  induction l with
  | nil => simp
  | cons b t ih =>
    obtain ⟨hbt, hndt⟩ := List.nodup_cons.mp hnd
    rw [List.flatMap_cons, List.filter_append, List.length_append, ih hndt]
    by_cases hbi : b = i
    · subst hbi
      rw [contrib_filter_self, if_neg hbt,
        if_pos (List.mem_cons_self _ _)]
      omega
    · rw [contrib_filter_ne C b i hbi]
      by_cases hit : i ∈ t
      · rw [if_pos hit, if_pos (List.mem_cons_of_mem _ hit)]
        simp
      · rw [if_neg hit, if_neg (fun hm => by
          rcases List.mem_cons.mp hm with h | h
          · exact hbi h.symm
          · exact hit h)]
        simp

theorem scanAndSendAlerts_eq (normW : String → String)
    (parseJson : String → List (String × String))
    (recips : String → List String) (sendOk : Nat → Bool) (now : String)
    (template : Option EmailTemplate) (sheets : List Sheet)
    (eventLog : Grid) (emailLog : Option Grid) :
    scanAndSendAlerts normW parseJson recips sendOk now template sheets
      eventLog emailLog =
    ((List.range eventLog.length).drop 1).foldl
      (scanStep (scanCtx normW parseJson recips sendOk now template sheets
        eventLog))
      ⟨eventLog, [], 0, emailLog, []⟩ := rfl

theorem scanQualifies_false_of_alerted (C : ScanCtx) (i : Nat)
    (hhead : C.events.getD 0 [] = stdEventHeaders)
    (halert : gcell C.events i 12 ≠ "") :
    scanQualifies C i = false := by
  unfold scanQualifies
  simp only []
  rw [hhead]
  simp only [show stdEventHeaders.indexOf? "Alerted" = some 12 from
    by decide]
  simp only [show getIdx (C.events.getD i []) (some 12) =
    gcell C.events i 12 from rfl]
  simp [halert]

/-! ## Claim theorems -/

/-- `updateSheet` at one name leaves lookups of every other name
unchanged, provided the update preserves the sheet's name. -/
theorem getSheetByName_updateSheet_ne (sheets : List Sheet) (m n : String)
    (f : Sheet → Sheet) (hf : ∀ s, (f s).name = s.name) (h : n ≠ m) :
    getSheetByName (updateSheet sheets m f) n = getSheetByName sheets n := by
  induction sheets with
  | nil => rfl
  | cons s rest ih =>
    unfold updateSheet at ih ⊢
    unfold getSheetByName at ih ⊢
    simp only [List.map_cons, List.find?]
    have hmn : (m = n) = False := eq_false (Ne.symm h)
    by_cases hs : s.name = m
    · simp only [if_pos hs, hf s, hs, hmn, decide_False, if_true]
      exact ih
    · simp only [if_neg hs]
      by_cases hn : s.name = n
      · simp [hn]
      · have hnf : (s.name = n) = False := eq_false hn
        simp only [hnf, decide_False]
        exact ih

/-- A `debugLog` append touches only the `DebugLog` sheet. -/
theorem getSheetByName_debugLogAppend_ne (sheets : List Sheet)
    (msg n : String) (h : n ≠ "DebugLog") :
    getSheetByName (debugLogAppend sheets msg) n = getSheetByName sheets n := by
  unfold debugLogAppend
  cases hd : getSheetByName sheets "DebugLog" with
  | some s =>
    exact getSheetByName_updateSheet_ne sheets "DebugLog" n _ (fun _ => rfl) h
  | none =>
    unfold getSheetByName
    rw [List.find?_append]
    have : List.find? (fun s => decide (s.name = n))
        [(⟨"DebugLog", [[msg]], []⟩ : Sheet)] = none := by
      have hdn : (("DebugLog" : String) = n) = False := eq_false (Ne.symm h)
      simp [List.find?, hdn]
    rw [this]
    cases List.find? (fun s => decide (s.name = n)) sheets <;> rfl

/-- **C3 (counterexample)**: a second `syncRosterForTeam` call on the
same day does write to the spreadsheet: it appends its
"Already synced today; skipping." line to the `DebugLog` sheet, so "zero
additional writes to the tabular store" is not literally true of the
store as a whole. -/
theorem C3_counterexample :
    (syncRosterForTeam id "2025-08-11" "Falcons"
      ⟨[⟨"DebugLog", [["log"]], []⟩], [("Falcons", "2025-08-11")]⟩).syncMap =
      [("Falcons", "2025-08-11")] ∧
    (syncRosterForTeam id "2025-08-11" "Falcons"
      ⟨[⟨"DebugLog", [["log"]], []⟩], [("Falcons", "2025-08-11")]⟩).sheets ≠
      [⟨"DebugLog", [["log"]], []⟩] := by decide

/-- **C3 (amended)**: calling the roster sync a second time on the same
calendar day (the team's `SyncState` entry already records today's date)
is a no-op apart from diagnostics: it returns before the rebuild,
leaves the sync map untouched, and performs no write to any sheet other
than appending one line to the `DebugLog` diagnostic sheet. -/
theorem C3_sync_idempotent_same_day (fmt : String → String)
    (today teamName : String) (st : DocState)
    (hsynced : st.syncMap.lookup teamName = some today) :
    (syncRosterForTeam fmt today teamName st).syncMap = st.syncMap ∧
    (∀ n, n ≠ "DebugLog" →
      getSheetByName (syncRosterForTeam fmt today teamName st).sheets n =
        getSheetByName st.sheets n) := by
  unfold syncRosterForTeam
  rw [hsynced]
  simp only []
  rw [if_pos trivial]
  exact ⟨rfl, fun n hn => getSheetByName_debugLogAppend_ne st.sheets _ n hn⟩

/-- Witness for C3: on a state where `Falcons` is recorded as synced
today, a repeat call leaves the sync map and the team sheet untouched. -/
theorem C3_sync_idempotent_same_day_witness :
    (syncRosterForTeam id "2025-08-11" "Falcons"
      ⟨[⟨"DebugLog", [["log"]], []⟩, ⟨"Falcons", [["D"]], []⟩],
       [("Falcons", "2025-08-11")]⟩).syncMap =
      [("Falcons", "2025-08-11")] ∧
    (∀ n, n ≠ "DebugLog" →
      getSheetByName (syncRosterForTeam id "2025-08-11" "Falcons"
        ⟨[⟨"DebugLog", [["log"]], []⟩, ⟨"Falcons", [["D"]], []⟩],
         [("Falcons", "2025-08-11")]⟩).sheets n =
        getSheetByName
          [⟨"DebugLog", [["log"]], []⟩, ⟨"Falcons", [["D"]], []⟩] n) :=
  C3_sync_idempotent_same_day id "2025-08-11" "Falcons"
    ⟨[⟨"DebugLog", [["log"]], []⟩, ⟨"Falcons", [["D"]], []⟩],
     [("Falcons", "2025-08-11")]⟩ (by decide)

/-- **C1 (counterexample)**: with ranks 1–3 filled and rank 4 empty, a
value written directly into the rank-5 column is *not* rejected: it is
relocated into the rank-4 column and accepted (the rank-4 cell ends up
holding `"X"`), refuting the claim's second half, which says such an
edit "is rejected and the edited cell reverts" (leaving rank 4 empty). -/
theorem C1_counterexample :
    (onEdit (some "t@x.org") "now"
      ⟨"Falcons",
       [["Active", "", "", "", "", "", "Aug 11, 2025"],
        ["", "", "1st", "2nd", "3rd", "4th", "5th"],
        ["DSID", "Last Name", "", "", "", "", ""],
        ["S1", "Doe", "A", "B", "C", "", "X"]], []⟩
      4 7 (some "X") none).sheet.cellAt 4 6 = "X" ∧
    (onEdit (some "t@x.org") "now"
      ⟨"Falcons",
       [["Active", "", "", "", "", "", "Aug 11, 2025"],
        ["", "", "1st", "2nd", "3rd", "4th", "5th"],
        ["DSID", "Last Name", "", "", "", "", ""],
        ["S1", "Doe", "A", "B", "C", "", "X"]], []⟩
      4 7 (some "X") none).outcome = .accepted := by decide

/-- **C1 (amended)**: in the active week block with ranks 1–3 filled and
rank 4 empty, an interactive edit of a non-empty value aimed at the
rank-5 column is relocated into the rank-4 column: the rank-5 cell
reverts to its previous value (left empty when it had none) and the
value is accepted at rank 4.  A direct write to rank 5 while rank 4 is
empty is therefore never rejected outright — it is relocated and
accepted. -/
theorem C1_sequence_relocation (em nowStr : String) (s : Sheet)
    (row sc : Nat) (v : String) (oldValue : Option String)
    (wb : WeekColumnBlock)
    (hexc : EXCLUDE_SHEETS.contains s.name = false)
    (hrow : FIRST_STUDENT_ROW < row)
    (hcols : getActiveWeekBlockCols s = some (sc, sc + 4))
    (hlab : INFRACTION_SEQUENCE.indexOf?
      (jsLower (jsTrim (s.cellAt 2 (sc + 4)))) = some 4)
    (hv : ¬ v = "")
    (hfill : ∀ i, i < 3 → s.cellAt row (sc + i) ≠ "")
    (h4 : s.cellAt row (sc + 3) = "")
    (hwb : (getWeekColumnBlocks s).find? (fun b =>
      decide (b.startCol ≤ sc + 4 ∧ sc + 4 ≤ b.endCol)) = some wb)
    (hwbs : wb.startCol = sc) :
    (onEdit (some em) nowStr s row (sc + 4) (some v) oldValue).outcome =
      .accepted ∧
    (onEdit (some em) nowStr s row (sc + 4) (some v) oldValue).sheet.cellAt
      row (sc + 3) = v ∧
    (onEdit (some em) nowStr s row (sc + 4) (some v) oldValue).sheet.cellAt
      row (sc + 4) = oldValue.getD "" ∧
    (onEdit (some em) nowStr s row (sc + 4) (some v) oldValue).relocatedTo =
      some (sc + 3) := by
  have hfm : (List.range INFRACTION_SEQUENCE.length).find? (fun idx =>
      decide (s.cellAt row (wb.startCol + idx) = "")) = some 3 := by
    rw [hwbs]
    rw [show List.range INFRACTION_SEQUENCE.length = [0, 1, 2, 3, 4] from rfl]
    have h0 : s.cellAt row sc ≠ "" := by simpa using hfill 0 (by omega)
    simp [List.find?, h0, hfill 1 (by omega), hfill 2 (by omega), h4]
  have hrel : relocationStep s row (sc + 4) 4 v oldValue wb =
      ⟨(revertCell s row (sc + 4) oldValue).setValueAt row (sc + 3) v,
       sc + 3, 3, true⟩ := by
    unfold relocationStep
    rw [hfm]
    simp only []
    rw [if_pos (by omega : (3:Nat) < 4)]
    rw [hwbs]
  have hs1 : ∀ i, i < 3 →
      ((revertCell s row (sc + 4) oldValue).setValueAt row (sc + 3)
        v).cellAt row (sc + i) = s.cellAt row (sc + i) := by
    intro i hi
    rw [Sheet.cellAt_setValueAt_ne _ _ _ _ _ _ (by omega)]
    rw [revertCell_cellAt_ne _ _ _ _ _ _ (by omega)]
  have hrp : rankPhase s row (sc + 4) 4 v oldValue wb =
      .inl ⟨(revertCell s row (sc + 4) oldValue).setValueAt row (sc + 3) v,
            sc + 3, 3, true⟩ := by
    unfold rankPhase
    rw [hrel]
    simp only []
    rw [hwbs]
    rw [show List.range (3:Nat) = [0, 1, 2] from rfl]
    have h0 : s.cellAt row sc ≠ "" := by simpa using hfill 0 (by omega)
    have hs10 : ((revertCell s row (sc + 4) oldValue).setValueAt row (sc + 3)
        v).cellAt row sc = s.cellAt row sc := by simpa using hs1 0 (by omega)
    simp [List.find?, hs10, hs1 1 (by omega), hs1 2 (by omega),
      h0, hfill 1 (by omega), hfill 2 (by omega)]
  have key : onEdit (some em) nowStr s row (sc + 4) (some v) oldValue =
      ⟨((revertCell s row (sc + 4) oldValue).setValueAt row (sc + 3)
          v).setNoteAt row (sc + 3)
        ("Entered by: " ++ em ++ " | " ++ nowStr ++
         (if ((revertCell s row (sc + 4) oldValue).setValueAt row (sc + 3)
              v).noteAt row (sc + 3) ≠ "" then
            "\n" ++ ((revertCell s row (sc + 4) oldValue).setValueAt row
              (sc + 3) v).noteAt row (sc + 3)
          else "")),
       .accepted, some (sc + 3)⟩ := by
    unfold onEdit
    rw [hexc]
    simp only [Bool.false_eq_true, if_false]
    rw [if_neg (by omega : ¬ row ≤ FIRST_STUDENT_ROW)]
    rw [hcols]
    rw [if_neg (by simp)]
    rw [hlab]
    simp only []
    rw [if_neg hv]
    rw [hwb]
    simp only []
    rw [hrp]
    simp only [emailPhase]
    simp
  rw [key]
  refine ⟨rfl, ?_, ?_, rfl⟩
  · simp only [Sheet.cellAt_setNoteAt]
    exact Sheet.cellAt_setValueAt_self _ _ _ _
  · simp only [Sheet.cellAt_setNoteAt]
    rw [Sheet.cellAt_setValueAt_ne _ _ _ _ _ _ (by omega)]
    exact revertCell_cellAt_self _ _ _ _

/-- Witness for C1: on the concrete Falcons view with ranks 1–3 filled,
the rank-5 edit of `"X"` is accepted at the rank-4 column (column 6) and
the rank-5 cell (column 7) is cleared. -/
theorem C1_sequence_relocation_witness :
    (onEdit (some "t@x.org") "now"
      ⟨"Falcons",
       [["Active", "", "", "", "", "", "Aug 11, 2025"],
        ["", "", "1st", "2nd", "3rd", "4th", "5th"],
        ["DSID", "Last Name", "", "", "", "", ""],
        ["S1", "Doe", "A", "B", "C", "", "X"]], []⟩
      4 (3 + 4) (some "X") none).outcome = .accepted ∧
    (onEdit (some "t@x.org") "now"
      ⟨"Falcons",
       [["Active", "", "", "", "", "", "Aug 11, 2025"],
        ["", "", "1st", "2nd", "3rd", "4th", "5th"],
        ["DSID", "Last Name", "", "", "", "", ""],
        ["S1", "Doe", "A", "B", "C", "", "X"]], []⟩
      4 (3 + 4) (some "X") none).sheet.cellAt 4 (3 + 3) = "X" ∧
    (onEdit (some "t@x.org") "now"
      ⟨"Falcons",
       [["Active", "", "", "", "", "", "Aug 11, 2025"],
        ["", "", "1st", "2nd", "3rd", "4th", "5th"],
        ["DSID", "Last Name", "", "", "", "", ""],
        ["S1", "Doe", "A", "B", "C", "", "X"]], []⟩
      4 (3 + 4) (some "X") none).sheet.cellAt 4 (3 + 4) =
      (none : Option String).getD "" ∧
    (onEdit (some "t@x.org") "now"
      ⟨"Falcons",
       [["Active", "", "", "", "", "", "Aug 11, 2025"],
        ["", "", "1st", "2nd", "3rd", "4th", "5th"],
        ["DSID", "Last Name", "", "", "", "", ""],
        ["S1", "Doe", "A", "B", "C", "", "X"]], []⟩
      4 (3 + 4) (some "X") none).relocatedTo = some (3 + 3) :=
  C1_sequence_relocation "t@x.org" "now"
    ⟨"Falcons",
     [["Active", "", "", "", "", "", "Aug 11, 2025"],
      ["", "", "1st", "2nd", "3rd", "4th", "5th"],
      ["DSID", "Last Name", "", "", "", "", ""],
      ["S1", "Doe", "A", "B", "C", "", "X"]], []⟩
    4 3 "X" none ⟨3, 7, "Aug 11, 2025"⟩
    (by decide) (by decide) (by decide) (by decide) (by decide)
    (by decide) (by decide) (by decide) (by decide)

/-- **C6 (counterexample)**: a view on which no active block resolves
(the `'active'` marker sits to the right of the only `'5th'` column, so
the marker path fails) where an interactive edit to the rank-1 column is
*accepted* (value kept, outcome `accepted`) — refuting the claim that
every rank-column edit on such a view is rejected. -/
theorem C6_counterexample :
    getActiveWeekBlockCols
      ⟨"Falcons",
       [["", "", "", "", "Aug 11, 2025", "", "Active"],
        ["1st", "2nd", "3rd", "4th", "5th", "", ""],
        ["DSID", "Last Name", "", "", "", "", ""],
        ["A", "", "", "", "", "", ""]], []⟩ = none ∧
    (onEdit (some "t@x.org") "now"
      ⟨"Falcons",
       [["", "", "", "", "Aug 11, 2025", "", "Active"],
        ["1st", "2nd", "3rd", "4th", "5th", "", ""],
        ["DSID", "Last Name", "", "", "", "", ""],
        ["A", "", "", "", "", "", ""]], []⟩
      4 1 (some "A") none).outcome = .accepted ∧
    (onEdit (some "t@x.org") "now"
      ⟨"Falcons",
       [["", "", "", "", "Aug 11, 2025", "", "Active"],
        ["1st", "2nd", "3rd", "4th", "5th", "", ""],
        ["DSID", "Last Name", "", "", "", "", ""],
        ["A", "", "", "", "", "", ""]], []⟩
      4 1 (some "A") none).sheet.cellAt 4 1 = "A" := by decide

/-- **C6 (amended)**: For every view where no active block can be
resolved, the view is treated as having no active block only in the
sense that the week-window guard is skipped: no interactive edit is
rejected as a window violation (rank-column edits instead proceed
through the sequence and attribution validation).  Moreover the two
active-week lookup paths cannot disagree in the claimed way: whenever
the marker-adjacent lookup yields an active-week label on a view at
least five columns wide, the block lookup resolves a block. -/
theorem C6_no_active_block_guard_skipped (s : Sheet) :
    (∀ (email : Option String) (nowStr : String) (row col : Nat)
       (evalue oldValue : Option String),
       getActiveWeekBlockCols s = none →
       (onEdit email nowStr s row col evalue oldValue).outcome ≠
         .blockedWeek) ∧
    (∀ w : String, getActiveWeekForSheet s = some w → 5 ≤ sheetWidth s →
       (getActiveWeekBlockCols s).isSome) :=
  ⟨fun email nowStr row col evalue oldValue hnone =>
     onEdit_no_active_block s email nowStr row col evalue oldValue hnone,
   fun w hw hwidth => active_paths_agree s w hw hwidth⟩

/-- Witness for C6: on the counterexample view, no edit is window-blocked
(the rank-1 edit is simply accepted); on a well-formed view the marker
path's label `"Week of Aug 11, 2025"` forces the block path to resolve. -/
theorem C6_no_active_block_guard_skipped_witness :
    (onEdit (some "t@x.org") "now"
      ⟨"Falcons",
       [["", "", "", "", "Aug 11, 2025", "", "Active"],
        ["1st", "2nd", "3rd", "4th", "5th", "", ""],
        ["DSID", "Last Name", "", "", "", "", ""],
        ["A", "", "", "", "", "", ""]], []⟩
      4 1 (some "A") none).outcome ≠ .blockedWeek ∧
    (getActiveWeekBlockCols
      ⟨"Falcons",
       [["Active", "", "", "", "", "", "Aug 11, 2025"],
        ["", "", "1st", "2nd", "3rd", "4th", "5th"],
        ["DSID", "Last Name", "", "", "", "", ""],
        ["S1", "Doe", "", "", "", "", ""]], []⟩).isSome :=
  ⟨(C6_no_active_block_guard_skipped
      ⟨"Falcons",
       [["", "", "", "", "Aug 11, 2025", "", "Active"],
        ["1st", "2nd", "3rd", "4th", "5th", "", ""],
        ["DSID", "Last Name", "", "", "", "", ""],
        ["A", "", "", "", "", "", ""]], []⟩).1
     (some "t@x.org") "now" 4 1 (some "A") none (by decide),
   (C6_no_active_block_guard_skipped
      ⟨"Falcons",
       [["Active", "", "", "", "", "", "Aug 11, 2025"],
        ["", "", "1st", "2nd", "3rd", "4th", "5th"],
        ["DSID", "Last Name", "", "", "", "", ""],
        ["S1", "Doe", "", "", "", "", ""]], []⟩).2
     "Week of Aug 11, 2025" (by decide) (by decide)⟩

/-- **C7**: For every interactive edit on a student row of a non-excluded
view whose column lies outside the resolved active week block, the edit is
rejected: the cell is restored exactly to its previous value (or cleared
if it had none), no relocation occurs, every other cell is untouched, and
no attribution note is stamped on any cell. -/
theorem C7_window_confinement (email : Option String) (nowStr : String)
    (s : Sheet) (row col : Nat) (evalue oldValue : Option String)
    (cb : Nat × Nat)
    (hexc : EXCLUDE_SHEETS.contains s.name = false)
    (hrow : FIRST_STUDENT_ROW < row)
    (hcols : getActiveWeekBlockCols s = some cb)
    (hout : col < cb.1 ∨ cb.2 < col) :
    (onEdit email nowStr s row col evalue oldValue).outcome = .blockedWeek ∧
    (onEdit email nowStr s row col evalue oldValue).sheet.cellAt row col =
      oldValue.getD "" ∧
    (∀ r c : Nat, r - 1 ≠ row - 1 ∨ c - 1 ≠ col - 1 →
      (onEdit email nowStr s row col evalue oldValue).sheet.cellAt r c =
        s.cellAt r c) ∧
    (onEdit email nowStr s row col evalue oldValue).sheet.notes = s.notes ∧
    (onEdit email nowStr s row col evalue oldValue).relocatedTo = none := by
  have key : onEdit email nowStr s row col evalue oldValue =
      ⟨revertCell s row col oldValue, .blockedWeek, none⟩ := by
    unfold onEdit
    rw [hexc, hcols]
    simp only [Bool.false_eq_true, if_false]
    rw [if_neg (by omega : ¬ row ≤ FIRST_STUDENT_ROW)]
    rw [if_pos (by simp; omega)]
  rw [key]
  refine ⟨rfl, revertCell_cellAt_self s row col oldValue, ?_, ?_, rfl⟩
  · exact fun r c h => revertCell_cellAt_ne s r c row col oldValue h
  · exact revertCell_notes s row col oldValue

/-- Witness for C7: with the active block at columns 3–7, an edit at
column 2 of a student row reverts to the old value `"old"`, leaves the
rest of the sheet alone and stamps no note. -/
theorem C7_window_confinement_witness :
    (onEdit (some "t@x.org") "now"
        ⟨"Falcons",
         [["Active", "", "", "", "", "", "Aug 11, 2025"],
          ["", "", "1st", "2nd", "3rd", "4th", "5th"],
          ["DSID", "Last Name", "", "", "", "", ""],
          ["S1", "HACKED", "", "", "", "", ""]], []⟩
        4 2 (some "HACKED") (some "old")).outcome = .blockedWeek ∧
    (onEdit (some "t@x.org") "now"
        ⟨"Falcons",
         [["Active", "", "", "", "", "", "Aug 11, 2025"],
          ["", "", "1st", "2nd", "3rd", "4th", "5th"],
          ["DSID", "Last Name", "", "", "", "", ""],
          ["S1", "HACKED", "", "", "", "", ""]], []⟩
        4 2 (some "HACKED") (some "old")).sheet.cellAt 4 2 =
      (some "old").getD "" := by
  have h := C7_window_confinement (some "t@x.org") "now"
    ⟨"Falcons",
     [["Active", "", "", "", "", "", "Aug 11, 2025"],
      ["", "", "1st", "2nd", "3rd", "4th", "5th"],
      ["DSID", "Last Name", "", "", "", "", ""],
      ["S1", "HACKED", "", "", "", "", ""]], []⟩
    4 2 (some "HACKED") (some "old") (3, 7)
    (by decide) (by decide) (by decide) (by decide)
  exact ⟨h.1, h.2.1⟩

/-- **C8 (counterexample)**: with all five ranks filled (so the sequence
invariant holds before the edit), blanking the rank-3 cell is accepted
unchanged by the guard, leaving rank 4 and 5 non-empty above an empty
rank 3 — the invariant is broken by a single processed edit. -/
theorem C8_counterexample :
    seqInv (revertCell
      ⟨"Falcons",
       [["Active", "", "", "", "", "", "Aug 11, 2025"],
        ["", "", "1st", "2nd", "3rd", "4th", "5th"],
        ["DSID", "Last Name", "", "", "", "", ""],
        ["S1", "Doe", "A", "B", "", "D", "E"]], []⟩ 4 5 (some "C")) 4 3 ∧
    (onEdit (some "t@x.org") "now"
      ⟨"Falcons",
       [["Active", "", "", "", "", "", "Aug 11, 2025"],
        ["", "", "1st", "2nd", "3rd", "4th", "5th"],
        ["DSID", "Last Name", "", "", "", "", ""],
        ["S1", "Doe", "A", "B", "", "D", "E"]], []⟩ 4 5 none
        (some "C")).sheet =
      ⟨"Falcons",
       [["Active", "", "", "", "", "", "Aug 11, 2025"],
        ["", "", "1st", "2nd", "3rd", "4th", "5th"],
        ["DSID", "Last Name", "", "", "", "", ""],
        ["S1", "Doe", "A", "B", "", "D", "E"]], []⟩ ∧
    ¬ seqInv (onEdit (some "t@x.org") "now"
      ⟨"Falcons",
       [["Active", "", "", "", "", "", "Aug 11, 2025"],
        ["", "", "1st", "2nd", "3rd", "4th", "5th"],
        ["DSID", "Last Name", "", "", "", "", ""],
        ["S1", "Doe", "A", "B", "", "D", "E"]], []⟩ 4 5 none
        (some "C")).sheet 4 3 := by decide

/-- **C8 (amended)**: the edit guard preserves the sequence invariant for
every interactive edit whose new value is non-empty: for the active week
block (standard rank labels, resolved block `(sc, sc+4)`), if the
invariant held for the subject row before the edit (the sheet with the
edited cell still holding its old value), it holds after the guard
processes the edit — whatever the outcome (accept, relocate, window
revert, or attribution revert).  An empty new value (a deletion) is
exempted: the guard accepts it unchanged, and it can break the
invariant (see the counterexample). -/
theorem C8_sequence_invariant_preserved (email : Option String) (nowStr : String) (s1 : Sheet)
    (row col sc : Nat) (v : String) (oldValue : Option String) (wbl : String)
    (hexc : EXCLUDE_SHEETS.contains s1.name = false)
    (hrow : FIRST_STUDENT_ROW < row)
    (hsc : 1 ≤ sc) (hcol : 1 ≤ col)
    (hcols : getActiveWeekBlockCols s1 = some (sc, sc + 4))
    (hstd : ∀ i, i < 5 → jsLower (jsTrim (s1.cellAt 2 (sc + i))) =
      INFRACTION_SEQUENCE.getD i "")
    (hwb : sc ≤ col → col ≤ sc + 4 →
      (getWeekColumnBlocks s1).find? (fun b =>
        decide (b.startCol ≤ col ∧ col ≤ b.endCol)) = some ⟨sc, sc + 4, wbl⟩)
    (hcell : s1.cellAt row col = v)
    (hv : ¬ v = "")
    (hInv : seqInv (revertCell s1 row col oldValue) row sc) :
    seqInv (onEdit email nowStr s1 row col (some v) oldValue).sheet row sc := by
  set s0 := revertCell s1 row col oldValue with hs0def
  have h0 : ∀ r c, r - 1 ≠ row - 1 ∨ c - 1 ≠ col - 1 →
      s0.cellAt r c = s1.cellAt r c := by
    intro r c h
    exact revertCell_cellAt_ne s1 r c row col oldValue h
  have hold : s0.cellAt row col = oldValue.getD "" :=
    revertCell_cellAt_self s1 row col oldValue
  by_cases hin : sc ≤ col ∧ col ≤ sc + 4
  case neg =>
    have key : onEdit email nowStr s1 row col (some v) oldValue =
        ⟨revertCell s1 row col oldValue, .blockedWeek, none⟩ := by
      unfold onEdit
      rw [hexc]
      simp only [Bool.false_eq_true, if_false]
      rw [if_neg (by omega : ¬ row ≤ FIRST_STUDENT_ROW)]
      rw [hcols]
      rw [if_pos (by simp; omega)]
    rw [key]
    intro j hj i hij hne
    rw [revertCell_cellAt_ne _ _ _ _ _ _ (Or.inr (by omega))] at hne
    rw [revertCell_cellAt_ne _ _ _ _ _ _ (Or.inr (by omega))]
    rw [← h0 row (sc + j) (Or.inr (by omega))] at hne
    rw [← h0 row (sc + i) (Or.inr (by omega))]
    exact hInv j hj i hij hne
  case pos =>
    obtain ⟨k, hk5, rfl⟩ : ∃ k, k < 5 ∧ col = sc + k :=
      ⟨col - sc, by omega, by omega⟩
    have hlab : INFRACTION_SEQUENCE.indexOf?
        (jsLower (jsTrim (s1.cellAt 2 (sc + k)))) = some k := by
      rw [hstd k hk5]
      interval_cases k <;> decide
    have hwb' := hwb (by omega) (by omega)
    have reduce : onEdit email nowStr s1 row (sc + k) (some v) oldValue =
        (match rankPhase s1 row (sc + k) k v oldValue ⟨sc, sc + 4, wbl⟩ with
         | .inr result => result
         | .inl w => emailPhase email nowStr w row (sc + k) oldValue) := by
      unfold onEdit
      rw [hexc]
      simp only [Bool.false_eq_true, if_false]
      rw [if_neg (by omega : ¬ row ≤ FIRST_STUDENT_ROW)]
      rw [hcols]
      rw [if_neg (by simp; omega)]
      rw [hlab]
      simp only []
      rw [if_neg hv]
      rw [hwb']
    rw [reduce]
    cases hfm : (List.range INFRACTION_SEQUENCE.length).find? (fun idx =>
        decide (s1.cellAt row (sc + idx) = "")) with
    | none =>
      have hall : ∀ idx, idx < 5 → s1.cellAt row (sc + idx) ≠ "" := by
        intro idx hidx
        have := List.find?_eq_none.mp hfm idx
          (List.mem_range.mpr (by simpa [INFRACTION_SEQUENCE] using hidx))
        simpa using this
      have hrel : relocationStep s1 row (sc + k) k v oldValue
          ⟨sc, sc + 4, wbl⟩ = ⟨s1, sc + k, k, false⟩ := by
        unfold relocationStep
        simp only []
        rw [hfm]
      have hrp : rankPhase s1 row (sc + k) k v oldValue ⟨sc, sc + 4, wbl⟩ =
          .inl ⟨s1, sc + k, k, false⟩ := by
        unfold rankPhase
        rw [hrel]
        simp only []
        rw [List.find?_eq_none.mpr ?seqnone]
        case seqnone =>
          intro i hi
          simp only [List.mem_range] at hi
          simpa using hall i (by omega)
      rw [hrp]
      simp only []
      cases email with
      | some em =>
        simp only [emailPhase]
        intro j hj i hij hne
        simpa using hall i (by omega)
      | none =>
        simp only [emailPhase, Bool.false_eq_true, if_false]
        intro j hj i hij hne
        simp only [Sheet.cellAt_setNoteAt] at hne ⊢
        have hcells : ∀ jx, (revertCell s1 row (sc + k)
            oldValue).cellAt row (sc + jx) = s0.cellAt row (sc + jx) := by
          intro jx
          by_cases hjk : jx = k
          · subst hjk
            rfl
          · rw [revertCell_cellAt_ne _ _ _ _ _ _ (Or.inr (by omega))]
        rw [hcells j] at hne
        rw [hcells i]
        exact hInv j hj i hij hne
    | some m =>
      obtain ⟨hpm, hm5', hmin⟩ := find?_range_min hfm
      have hm5 : m < 5 := by simpa [INFRACTION_SEQUENCE] using hm5'
      have hm_empty : s1.cellAt row (sc + m) = "" := by simpa using hpm
      have hmin' : ∀ i, i < m → s1.cellAt row (sc + i) ≠ "" := by
        intro i hi
        simpa using hmin i hi
      have hkm : k ≠ m := by
        intro h
        rw [h] at hcell
        rw [hcell] at hm_empty
        exact hv hm_empty
      have hs0m : s0.cellAt row (sc + m) = "" := by
        rw [h0 row (sc + m) (Or.inr (by omega))]
        exact hm_empty
      have hs0high : ∀ j, m < j → j < 5 → s0.cellAt row (sc + j) = "" := by
        intro j hmj hj5
        by_contra hne
        exact absurd hs0m (hInv j hj5 m hmj hne)
      by_cases hk_gt : m < k
      · -- relocation into the first missing slot
        have hold_empty : oldValue.getD "" = "" := by
          rw [← hold]
          exact hs0high k hk_gt hk5
        have hrel : relocationStep s1 row (sc + k) k v oldValue
            ⟨sc, sc + 4, wbl⟩ =
            ⟨(revertCell s1 row (sc + k) oldValue).setValueAt row (sc + m) v,
             sc + m, m, true⟩ := by
          unfold relocationStep
          simp only []
          rw [hfm]
          simp only []
          rw [if_pos hk_gt]
        have hc1 : ∀ i, i < m →
            ((revertCell s1 row (sc + k) oldValue).setValueAt row (sc + m)
              v).cellAt row (sc + i) = s1.cellAt row (sc + i) := by
          intro i hi
          rw [Sheet.cellAt_setValueAt_ne _ _ _ _ _ _ (Or.inr (by omega))]
          rw [revertCell_cellAt_ne _ _ _ _ _ _ (Or.inr (by omega))]
        have hrp : rankPhase s1 row (sc + k) k v oldValue ⟨sc, sc + 4, wbl⟩ =
            .inl ⟨(revertCell s1 row (sc + k) oldValue).setValueAt row
                    (sc + m) v, sc + m, m, true⟩ := by
          unfold rankPhase
          rw [hrel]
          simp only []
          rw [List.find?_eq_none.mpr ?seqnone]
          case seqnone =>
            intro i hi
            simp only [List.mem_range] at hi
            simp only [decide_eq_true_eq]
            rw [hc1 i hi]
            exact hmin' i hi
        rw [hrp]
        simp only []
        have hcm : ((revertCell s1 row (sc + k) oldValue).setValueAt row
            (sc + m) v).cellAt row (sc + m) = v :=
          Sheet.cellAt_setValueAt_self _ _ _ _
        have hchigh : ∀ j, m < j → j < 5 →
            ((revertCell s1 row (sc + k) oldValue).setValueAt row (sc + m)
              v).cellAt row (sc + j) = "" := by
          intro j hmj hj5
          by_cases hjk : j = k
          · subst hjk
            rw [Sheet.cellAt_setValueAt_ne _ _ _ _ _ _ (Or.inr (by omega))]
            rw [revertCell_cellAt_self]
            exact hold_empty
          · rw [Sheet.cellAt_setValueAt_ne _ _ _ _ _ _ (Or.inr (by omega))]
            rw [revertCell_cellAt_ne _ _ _ _ _ _ (Or.inr (by omega))]
            rw [← h0 row (sc + j) (Or.inr (by omega))]
            exact hs0high j hmj hj5
        cases email with
        | some em =>
          simp only [emailPhase]
          intro j hj i hij hne
          simp only [Sheet.cellAt_setNoteAt] at hne ⊢
          rcases Nat.lt_or_ge m j with hmj | hjm
          · exact absurd (hchigh j hmj hj) hne
          · rcases Nat.lt_or_ge i m with him | hmi
            · rw [hc1 i him]
              exact hmin' i him
            · have : i = m := by omega
              subst this
              rw [hcm]
              exact hv
        | none =>
          simp only [emailPhase, eq_self_iff_true, if_true]
          intro j hj i hij hne
          simp only [Sheet.cellAt_setNoteAt] at hne ⊢
          by_cases hjm : j = m
          · subst hjm
            rw [Sheet.cellAt_setValueAt_self] at hne
            exact absurd rfl hne
          · rw [Sheet.cellAt_setValueAt_ne _ _ _ _ _ _ (Or.inr (by omega))]
              at hne
            rcases Nat.lt_or_ge m j with hmj | hjm'
            · exact absurd (hchigh j hmj hj) hne
            · have hjm2 : j < m := by omega
              have him : i < m := by omega
              rw [Sheet.cellAt_setValueAt_ne _ _ _ _ _ _ (Or.inr (by omega))]
              rw [hc1 i him]
              exact hmin' i him
      · -- k < m: the edited rank sits at or below the first missing slot
        have hk_lt : k < m := by omega
        have hrel : relocationStep s1 row (sc + k) k v oldValue
            ⟨sc, sc + 4, wbl⟩ = ⟨s1, sc + k, k, false⟩ := by
          unfold relocationStep
          simp only []
          rw [hfm]
          simp only []
          rw [if_neg (by omega)]
        have hrp : rankPhase s1 row (sc + k) k v oldValue ⟨sc, sc + 4, wbl⟩ =
            .inl ⟨s1, sc + k, k, false⟩ := by
          unfold rankPhase
          rw [hrel]
          simp only []
          rw [List.find?_eq_none.mpr ?seqnone2]
          case seqnone2 =>
            intro i hi
            simp only [List.mem_range] at hi
            simp only [decide_eq_true_eq]
            exact hmin' i (by omega)
        rw [hrp]
        simp only []
        have hs1high : ∀ j, m < j → j < 5 → s1.cellAt row (sc + j) = "" := by
          intro j hmj hj5
          rw [← h0 row (sc + j) (Or.inr (by omega))]
          exact hs0high j hmj hj5
        cases email with
        | some em =>
          simp only [emailPhase]
          intro j hj i hij hne
          simp only [Sheet.cellAt_setNoteAt] at hne ⊢
          rcases Nat.lt_or_ge m j with hmj | hjm
          · exact absurd (hs1high j hmj hj) hne
          · have him : i < m := by omega
            exact hmin' i him
        | none =>
          simp only [emailPhase, Bool.false_eq_true, if_false]
          intro j hj i hij hne
          simp only [Sheet.cellAt_setNoteAt] at hne ⊢
          have hcells : ∀ jx, (revertCell s1 row (sc + k)
              oldValue).cellAt row (sc + jx) = s0.cellAt row (sc + jx) := by
            intro jx
            by_cases hjk : jx = k
            · subst hjk
              rfl
            · rw [revertCell_cellAt_ne _ _ _ _ _ _ (Or.inr (by omega))]
          rw [hcells j] at hne
          rw [hcells i]
          exact hInv j hj i hij hne

/-- Witness for C8: writing `"C"` into the rank-3 column while ranks 1–2
are filled preserves the invariant on the resulting sheet. -/
theorem C8_sequence_invariant_preserved_witness :
    seqInv (onEdit (some "t@x.org") "now"
      ⟨"Falcons",
       [["Active", "", "", "", "", "", "Aug 11, 2025"],
        ["", "", "1st", "2nd", "3rd", "4th", "5th"],
        ["DSID", "Last Name", "", "", "", "", ""],
        ["S1", "Doe", "A", "B", "C", "", ""]], []⟩
      4 5 (some "C") none).sheet 4 3 :=
  C8_sequence_invariant_preserved (some "t@x.org") "now"
    ⟨"Falcons",
     [["Active", "", "", "", "", "", "Aug 11, 2025"],
      ["", "", "1st", "2nd", "3rd", "4th", "5th"],
      ["DSID", "Last Name", "", "", "", "", ""],
      ["S1", "Doe", "A", "B", "C", "", ""]], []⟩
    4 5 3 "C" none "Aug 11, 2025"
    (by decide) (by decide) (by decide) (by decide) (by decide) (by decide)
    (by decide) (by decide) (by decide) (by decide)

/-- **C9**: For every interactive edit inside the active week block on a
rank column whose new value is empty (a deletion or blanking), the edit
guard accepts it unchanged and returns immediately: the resulting sheet
is exactly the input sheet (no relocation, no sequence check revert, no
note), regardless of the state of the other rank cells. -/
theorem C9_empty_value_accepted (email : Option String) (nowStr : String)
    (s : Sheet) (row col k : Nat) (evalue oldValue : Option String)
    (cb : Nat × Nat)
    (hexc : EXCLUDE_SHEETS.contains s.name = false)
    (hrow : FIRST_STUDENT_ROW < row)
    (hcols : getActiveWeekBlockCols s = some cb)
    (hin : cb.1 ≤ col ∧ col ≤ cb.2)
    (hlab : INFRACTION_SEQUENCE.indexOf?
      (jsLower (jsTrim (s.cellAt 2 col))) = some k)
    (hempty : (match evalue with
               | some v => v
               | none => s.cellAt row col) = "") :
    onEdit email nowStr s row col evalue oldValue = ⟨s, .emptyValue, none⟩ := by
  unfold onEdit
  rw [hexc, hcols]
  simp only [Bool.false_eq_true, if_false]
  rw [if_neg (by omega : ¬ row ≤ FIRST_STUDENT_ROW)]
  rw [if_neg (by simp; omega)]
  rw [hlab]
  simp only []
  rw [if_pos hempty]

/-- Witness for C9: blanking the rank-3 cell while ranks 4 and 5 are
still filled is accepted unchanged — the sheet is returned as-is. -/
theorem C9_empty_value_accepted_witness :
    onEdit (some "t@x.org") "now"
        ⟨"Falcons",
         [["Active", "", "", "", "", "", "Aug 11, 2025"],
          ["", "", "1st", "2nd", "3rd", "4th", "5th"],
          ["DSID", "Last Name", "", "", "", "", ""],
          ["S1", "Doe", "A", "B", "", "D", "E"]], []⟩
        4 5 none (some "C") =
      ⟨⟨"Falcons",
        [["Active", "", "", "", "", "", "Aug 11, 2025"],
         ["", "", "1st", "2nd", "3rd", "4th", "5th"],
         ["DSID", "Last Name", "", "", "", "", ""],
         ["S1", "Doe", "A", "B", "", "D", "E"]], []⟩, .emptyValue, none⟩ :=
  C9_empty_value_accepted (some "t@x.org") "now"
    ⟨"Falcons",
     [["Active", "", "", "", "", "", "Aug 11, 2025"],
      ["", "", "1st", "2nd", "3rd", "4th", "5th"],
      ["DSID", "Last Name", "", "", "", "", ""],
      ["S1", "Doe", "A", "B", "", "D", "E"]], []⟩
    4 5 2 none (some "C") (3, 7)
    (by decide) (by decide) (by decide) (by decide) (by decide) (by decide)

/-- **C2 (counterexample)**: a clean ledger (the uniqueness hypothesis
holds) and one team view in which each of two keys is observed twice in
the same run: the duplicate observations take the update path against
the rows registered for the batch append, their `Source Value` writes
extend the sheet past its original last row, and the batch append —
re-reading `getLastRow()` — lands below those partial rows.  The final
ledger contains two partially-written rows whose keys are both the blank
`"||"`, so it does not have at most one row per key. -/
theorem C2_counterexample :
    (ledgerKeys id [stdEventHeaders]).Nodup ∧
    ¬(ledgerKeys id
      (processNewEvents id (fun _ => "J") "NOW" [wDupSheet]
        [stdEventHeaders] wStudents).1).Nodup := by
  decide

/-- **C2 (amended)**: one reconciliation pass onto a ledger with at most
one row per `DSID|Infraction|Week` key (standard header row, idempotent
week formatter) yields a ledger consisting of the original rows (whose
keys are unchanged), then one blank-keyed partial row for every row by
which in-run duplicate observations grew the sheet, then the batch of
new events; the original keys together with the new events' keys are
pairwise distinct, so duplicate keys can arise only among the blank
partial rows. -/
theorem C2_ledger_key_uniqueness (fmt : String → String)
    (serialize : List (String × String) → String) (now : String)
    (sheets : List Sheet) (eventLog : Grid) (students : Grid)
    (hfmt : ∀ w, fmt (fmt w) = fmt w)
    (hhead : eventLog.getD 0 [] = stdEventHeaders)
    (hnodup : (ledgerKeys fmt eventLog).Nodup) :
    ledgerKeys fmt
        (processNewEvents fmt serialize now sheets eventLog students).1 =
      ledgerKeys fmt eventLog ++
      List.replicate
        ((pnState fmt serialize now sheets eventLog students).grid.length -
          eventLog.length)
        (String.intercalate "|" ["", "", fmt ""]) ++
      (pnState fmt serialize now sheets eventLog students).newEvents.map
        (stdKey fmt) ∧
    (ledgerKeys fmt eventLog ++
      (pnState fmt serialize now sheets eventLog students).newEvents.map
        (stdKey fmt)).Nodup := by
  have horig : 1 ≤ eventLog.length := by
    cases eventLog with
    | nil => exact absurd hhead (by decide)
    | cons a t => simp
  rw [processNewEvents_eq fmt serialize now sheets eventLog students hhead]
  have hinv := pnState_inv fmt serialize now sheets eventLog students hfmt
  set st := pnState fmt serialize now sheets eventLog students with hst
  constructor
  · show ledgerKeys fmt
        (writeRowsAt st.grid st.grid.length st.newEvents) = _
    set M := st.grid.length - eventLog.length with hM
    have hS : st.grid.length = eventLog.length + M := by
      have := hinv.glen_lb
      omega
    set G := writeRowsAt st.grid st.grid.length st.newEvents with hG
    have hlen : G.length = st.grid.length + st.newEvents.length := by
      rw [hG]
      exact writeRowsAt_length _ _ _ (Nat.le_refl _) (Nat.le_add_right _ _)
    rw [ledgerKeys_eq_map_stdKey fmt G, drop1_map_eq_range_map, hlen, hS,
      List.range_add, List.range_add]
    rw [List.drop_append_of_le_length
      (show 1 ≤ (List.range eventLog.length ++
        List.map (fun x => eventLog.length + x) (List.range M)).length from
        by simp; omega)]
    rw [List.drop_append_of_le_length (by simpa using horig)]
    rw [List.map_append, List.map_append]
    congr 1
    · congr 1
      · rw [ledgerKeys_eq_map_stdKey, drop1_map_eq_range_map]
        apply List.map_congr_left
        intro i hi
        have hi' := (mem_drop1_range _ _).mp hi
        have hrow : G.getD i [] = st.grid.getD i [] := by
          rw [hG]
          exact writeRowsAt_getD_lt _ _ _ _
            (Nat.lt_of_lt_of_le hi'.2 hinv.glen_lb)
        rw [stdKey_eq, stdKey_eq, hrow]
        have hcell : ∀ c, c ≠ 10 →
            (st.grid.getD i []).getD c "" = (eventLog.getD i []).getD c "" :=
          fun c hc => hinv.frame i c hc
        rw [hcell 1 (by omega), hcell 6 (by omega), hcell 7 (by omega)]
      · rw [List.map_map]
        refine List.eq_replicate_iff.mpr ⟨by simp, ?_⟩
        intro b hb
        rw [List.mem_map] at hb
        obtain ⟨j, hj, rfl⟩ := hb
        have hj' := List.mem_range.mp hj
        show stdKey fmt (G.getD (eventLog.length + j) []) =
          String.intercalate "|" ["", "", fmt ""]
        have hrow : G.getD (eventLog.length + j) [] =
            st.grid.getD (eventLog.length + j) [] := by
          rw [hG]
          exact writeRowsAt_getD_lt _ _ _ _ (by omega)
        rw [stdKey_eq, hrow]
        have hcell : ∀ c, c ≠ 10 →
            (st.grid.getD (eventLog.length + j) []).getD c "" =
            (eventLog.getD (eventLog.length + j) []).getD c "" :=
          fun c hc => hinv.frame (eventLog.length + j) c hc
        have hblank : ∀ c : Nat,
            (eventLog.getD (eventLog.length + j) []).getD c "" = "" := by
          intro c
          rw [List.getD_eq_default _ _ (Nat.le_add_right _ _)]
          rfl
        rw [hcell 1 (by omega), hcell 6 (by omega), hcell 7 (by omega),
          hblank 1, hblank 6, hblank 7]
    · rw [List.map_map]
      conv_rhs => rw [← map_range_getD st.newEvents, List.map_map]
      apply List.map_congr_left
      intro j hj
      have hj' := List.mem_range.mp hj
      show stdKey fmt (G.getD (eventLog.length + M + j) []) = _
      rw [hG, ← hS, writeRowsAt_getD_ge _ _ _ _ hj']
      rfl
  · rw [List.nodup_append]
    exact ⟨hnodup, hinv.nodupNew, fun a ha ha' => hinv.disj a ha' ha⟩

/-- **C2 (witness)**: a fresh ledger plus one new observed infraction —
no in-run duplicates, so the blank region is empty and the resulting
keys are exactly the one new key. -/
theorem C2_ledger_key_uniqueness_witness :
    (ledgerKeys id
        (processNewEvents id (fun _ => "J") "NOW" [wSheet1]
          [stdEventHeaders] wStudents).1 =
      ledgerKeys id [stdEventHeaders] ++
      List.replicate
        ((pnState id (fun _ => "J") "NOW" [wSheet1] [stdEventHeaders]
          wStudents).grid.length - ([stdEventHeaders] : Grid).length)
        (String.intercalate "|" ["", "", id ""]) ++
      (pnState id (fun _ => "J") "NOW" [wSheet1] [stdEventHeaders]
        wStudents).newEvents.map (stdKey id)) ∧
    (ledgerKeys id [stdEventHeaders] ++
      (pnState id (fun _ => "J") "NOW" [wSheet1] [stdEventHeaders]
        wStudents).newEvents.map (stdKey id)).Nodup :=
  C2_ledger_key_uniqueness id (fun _ => "J") "NOW" [wSheet1]
    [stdEventHeaders] wStudents (fun w => rfl) rfl (by decide)

/-- C5: when reconciliation observes a cell whose key already exists in
the ledger, only that row's `Source Value` field can change (original
ledger rows are otherwise untouched, in particular the identity
snapshot), and every performed write is a `Source Value` write of a value
that differs from the stored one. -/
theorem C5_snapshot_immutability (fmt : String → String)
    (serialize : List (String × String) → String) (now : String)
    (sheets : List Sheet) (eventLog : Grid) (students : Grid)
    (hhead : eventLog.getD 0 [] = stdEventHeaders) :
    (∀ r c, r < eventLog.length → c ≠ 10 →
      gcell (processNewEvents fmt serialize now sheets eventLog students).1
        r c = gcell eventLog r c) ∧
    ∀ w ∈ (processNewEvents fmt serialize now sheets eventLog students).2,
      w.2.1 = 10 ∧ w.2.2.1 ≠ w.2.2.2 := by
  rw [processNewEvents_eq fmt serialize now sheets eventLog students hhead]
  have hfr : PFrame eventLog
      (pnState fmt serialize now sheets eventLog students) := by
    apply pnState_pres _ fmt serialize now sheets eventLog students
    · intro sn sd dsid inf wk v note st hP
      exact observeCell_frame eventLog now serialize sn sd
        dsid inf (fmt wk) v note st hP
    · exact ⟨Nat.le_refl _, fun r c _ _ => rfl,
        fun w hw => absurd hw (List.not_mem_nil w)⟩
  constructor
  · intro r c hr hc
    show gcell (writeRowsAt
      (pnState fmt serialize now sheets eventLog students).grid
      (pnState fmt serialize now sheets eventLog students).grid.length
      (pnState fmt serialize now sheets eventLog students).newEvents) r c =
      gcell eventLog r c
    unfold gcell
    rw [writeRowsAt_getD_lt _ _ _ _ (Nat.lt_of_lt_of_le hr hfr.glen_lb)]
    exact hfr.frame r c hr hc
  · exact hfr.wok

/-- **C5 (witness)**: a view whose observed cell value differs from the
stored `Source Value` of its existing ledger row: only that cell is
rewritten. -/
theorem C5_snapshot_immutability_witness :
    (∀ r c, r < wLog1.length → c ≠ 10 →
      gcell (processNewEvents id (fun _ => "J") "NOW" [wSheet1] wLog1
        wStudents).1 r c = gcell wLog1 r c) ∧
    ∀ w ∈ (processNewEvents id (fun _ => "J") "NOW" [wSheet1] wLog1
        wStudents).2,
      w.2.1 = 10 ∧ w.2.2.1 ≠ w.2.2.2 :=
  C5_snapshot_immutability id (fun _ => "J") "NOW" [wSheet1] wLog1
    wStudents rfl

/-- **C4 (counterexample)**: a terminal-rank event with an empty alert
marker whose normalized week equals its view's normalized active week,
but whose resolved recipient list is empty: the scan performs zero
notification attempts — not exactly one — though it still stamps the
alert marker. -/
theorem C4_counterexample :
    scanQualifies (scanCtx (fun _ => "W") (fun _ => []) (fun _ => [])
      (fun _ => true) "NOW" (some ⟨"s", "b", []⟩) [wScanSheet]
      [stdEventHeaders, wScanEvent]) 1 = true ∧
    (scanAndSendAlerts (fun _ => "W") (fun _ => []) (fun _ => [])
      (fun _ => true) "NOW" (some ⟨"s", "b", []⟩) [wScanSheet]
      [stdEventHeaders, wScanEvent] none).attempts = [] ∧
    gcell (scanAndSendAlerts (fun _ => "W") (fun _ => []) (fun _ => [])
      (fun _ => true) "NOW" (some ⟨"s", "b", []⟩) [wScanSheet]
      [stdEventHeaders, wScanEvent] none).grid 1 12 = "NOW" := by
  decide

/-- **C4 (amended)**: for a qualifying ledger event (terminal rank,
empty marker, week equal to the origin view's active week, template
available) the scan stamps the event's `Alerted` cell with the current
timestamp and performs exactly one notification attempt when the
resolved recipient list is non-empty and zero attempts when it is empty;
rows failing the guard chain are left unchanged and get no attempt. -/
theorem C4_alert_scan_marking (normW : String → String)
    (parseJson : String → List (String × String))
    (recips : String → List String) (sendOk : Nat → Bool) (now : String)
    (template : Option EmailTemplate) (sheets : List Sheet)
    (eventLog : Grid) (emailLog : Option Grid) (i : Nat)
    (hhead : eventLog.getD 0 [] = stdEventHeaders)
    (hi1 : 1 ≤ i) (hin : i < eventLog.length)
    (hq : scanQualifies (scanCtx normW parseJson recips sendOk now template
      sheets eventLog) i = true) :
    gcell (scanAndSendAlerts normW parseJson recips sendOk now template
      sheets eventLog emailLog).grid i 12 = now ∧
    countAttempts (scanAndSendAlerts normW parseJson recips sendOk now
      template sheets eventLog emailLog) i =
      (if scanRecipients (scanCtx normW parseJson recips sendOk now template
        sheets eventLog) i = [] then 0 else 1) ∧
    ∀ j c, scanQualifies (scanCtx normW parseJson recips sendOk now template
        sheets eventLog) j = false →
      gcell (scanAndSendAlerts normW parseJson recips sendOk now template
        sheets eventLog emailLog).grid j c = gcell eventLog j c ∧
      countAttempts (scanAndSendAlerts normW parseJson recips sendOk now
        template sheets eventLog emailLog) j = 0 := by
  rw [scanAndSendAlerts_eq]
  set C := scanCtx normW parseJson recips sendOk now template sheets
    eventLog with hC
  set l := (List.range eventLog.length).drop 1 with hl
  have hh : C.events.getD 0 [] = stdEventHeaders := hhead
  have hnd : l.Nodup := (List.drop_sublist 1 _).nodup (List.nodup_range _)
  have hmem : i ∈ l := by
    rw [hl]
    exact (mem_drop1_range _ _).mpr ⟨hi1, hin⟩
  have hatt : (l.foldl (scanStep C)
      (⟨eventLog, [], 0, emailLog, []⟩ : ScanState)).attempts =
      l.flatMap (attemptContrib C) := by
    rw [scan_foldl_attempts]
    rfl
  refine ⟨?_, ?_, ?_⟩
  · rw [scan_foldl_gcell C hh l _ i 12, if_pos ⟨hmem, hq, rfl⟩]
    rfl
  · unfold countAttempts
    rw [hatt, count_flatMap_contrib C l i hnd, if_pos hmem]
    unfold attemptContrib
    by_cases hr : scanRecipients C i = []
    · rw [if_pos hr, if_neg (fun hc => hc.2 hr)]
      rfl
    · rw [if_neg hr, if_pos ⟨hq, hr⟩]
      rfl
  · intro j c hqj
    constructor
    · rw [scan_foldl_gcell C hh l _ j c,
        if_neg (fun hc => Bool.false_ne_true (hqj ▸ hc.2.1))]
    · unfold countAttempts
      rw [hatt, count_flatMap_contrib C l j hnd]
      have hcj : attemptContrib C j = [] := by
        unfold attemptContrib
        rw [if_neg (fun hc => Bool.false_ne_true (hqj ▸ hc.1))]
      rw [hcj]
      split <;> rfl

/-- **C4 (witness)**: the amended theorem at the concrete
empty-recipients view. -/
theorem C4_alert_scan_marking_witness :
    gcell (scanAndSendAlerts (fun _ => "W") (fun _ => []) (fun _ => [])
      (fun _ => true) "NOW" (some ⟨"s", "b", []⟩) [wScanSheet]
      [stdEventHeaders, wScanEvent] none).grid 1 12 = "NOW" ∧
    countAttempts (scanAndSendAlerts (fun _ => "W") (fun _ => [])
      (fun _ => []) (fun _ => true) "NOW" (some ⟨"s", "b", []⟩) [wScanSheet]
      [stdEventHeaders, wScanEvent] none) 1 =
      (if scanRecipients (scanCtx (fun _ => "W") (fun _ => []) (fun _ => [])
        (fun _ => true) "NOW" (some ⟨"s", "b", []⟩) [wScanSheet]
        [stdEventHeaders, wScanEvent]) 1 = [] then 0 else 1) :=
  ⟨(C4_alert_scan_marking (fun _ => "W") (fun _ => []) (fun _ => [])
      (fun _ => true) "NOW" (some ⟨"s", "b", []⟩) [wScanSheet]
      [stdEventHeaders, wScanEvent] none 1 rfl (by decide) (by decide)
      (by decide)).1,
   (C4_alert_scan_marking (fun _ => "W") (fun _ => []) (fun _ => [])
      (fun _ => true) "NOW" (some ⟨"s", "b", []⟩) [wScanSheet]
      [stdEventHeaders, wScanEvent] none 1 rfl (by decide) (by decide)
      (by decide)).2.1⟩

/-- **C10**: when the mail sender throws for a qualifying event with a
non-empty recipient list (`sendOk i = false` models the caught
exception), the scan still records the notification attempt, still
stamps the `Alerted` marker, still appends the audit row, continues to
mark every other qualifying event, and a second scan over the updated
ledger makes no further attempt for that event. -/
theorem C10_sender_fault_tolerance (normW : String → String)
    (parseJson : String → List (String × String))
    (recips : String → List String) (sendOk : Nat → Bool) (now : String)
    (template : Option EmailTemplate) (sheets : List Sheet)
    (eventLog : Grid) (lg0 : Grid) (i : Nat)
    (hhead : eventLog.getD 0 [] = stdEventHeaders)
    (hi1 : 1 ≤ i) (hin : i < eventLog.length)
    (hq : scanQualifies (scanCtx normW parseJson recips sendOk now template
      sheets eventLog) i = true)
    (hr : scanRecipients (scanCtx normW parseJson recips sendOk now template
      sheets eventLog) i ≠ [])
    (hfail : sendOk i = false)
    (hnow : now ≠ "") :
    (i, scanRecipients (scanCtx normW parseJson recips sendOk now template
      sheets eventLog) i) ∈
      (scanAndSendAlerts normW parseJson recips sendOk now template sheets
        eventLog (some lg0)).attempts ∧
    gcell (scanAndSendAlerts normW parseJson recips sendOk now template
      sheets eventLog (some lg0)).grid i 12 = now ∧
    i ∈ (scanAndSendAlerts normW parseJson recips sendOk now template
      sheets eventLog (some lg0)).audits ∧
    (∀ j, 1 ≤ j → j < eventLog.length →
      scanQualifies (scanCtx normW parseJson recips sendOk now template
        sheets eventLog) j = true →
      gcell (scanAndSendAlerts normW parseJson recips sendOk now template
        sheets eventLog (some lg0)).grid j 12 = now) ∧
    countAttempts (scanAndSendAlerts normW parseJson recips sendOk now
      template sheets
      (scanAndSendAlerts normW parseJson recips sendOk now template sheets
        eventLog (some lg0)).grid
      (scanAndSendAlerts normW parseJson recips sendOk now template sheets
        eventLog (some lg0)).emailLog) i = 0 := by
  simp only [scanAndSendAlerts_eq]
  set C := scanCtx normW parseJson recips sendOk now template sheets
    eventLog with hC
  set l := (List.range eventLog.length).drop 1 with hl
  set st0 : ScanState := ⟨eventLog, [], 0, some lg0, []⟩ with hst0
  set res := l.foldl (scanStep C) st0 with hres
  have hh : C.events.getD 0 [] = stdEventHeaders := hhead
  have hnd : l.Nodup := (List.drop_sublist 1 _).nodup (List.nodup_range _)
  have hmem : i ∈ l := (mem_drop1_range _ _).mpr ⟨hi1, hin⟩
  have hattm : res.attempts = l.flatMap (attemptContrib C) := by
    rw [hres, scan_foldl_attempts]
    exact List.nil_append _
  have hmark : gcell res.grid i 12 = now := by
    rw [hres, scan_foldl_gcell C hh l st0 i 12, if_pos ⟨hmem, hq, rfl⟩]
    rfl
  have hrow0 : res.grid.getD 0 [] = stdEventHeaders := by
    rw [hres, scan_foldl_getD_row C hh l st0 0 (fun j hj => by
      have := (mem_drop1_range _ _).mp hj
      omega)]
    exact hhead
  have haud : res.audits = l.filter (fun j => scanQualifies C j) := by
    rw [hres, scan_foldl_audits,
      if_pos (show st0.emailLog.isSome = true from rfl)]
    exact List.nil_append _
  refine ⟨?_, hmark, ?_, ?_, ?_⟩
  · rw [hattm]
    refine List.mem_flatMap.mpr ⟨i, hmem, ?_⟩
    unfold attemptContrib
    rw [if_pos ⟨hq, hr⟩]
    exact List.mem_singleton.mpr rfl
  · rw [haud]
    exact List.mem_filter.mpr ⟨hmem, hq⟩
  · intro j hj1 hj2 hqj
    rw [hres, scan_foldl_gcell C hh l st0 j 12,
      if_pos ⟨(mem_drop1_range _ _).mpr ⟨hj1, hj2⟩, hqj, rfl⟩]
    rfl
  · have hh2 : (scanCtx normW parseJson recips sendOk now template sheets
        res.grid).events.getD 0 [] = stdEventHeaders := hrow0
    have halert2 : gcell (scanCtx normW parseJson recips sendOk now template
        sheets res.grid).events i 12 ≠ "" := by
      show gcell res.grid i 12 ≠ ""
      rw [hmark]
      exact hnow
    have hq2 : scanQualifies (scanCtx normW parseJson recips sendOk now
        template sheets res.grid) i = false :=
      scanQualifies_false_of_alerted _ i hh2 halert2
    have hnd2 : ((List.range res.grid.length).drop 1).Nodup :=
      (List.drop_sublist 1 _).nodup (List.nodup_range _)
    have hatt2 : (((List.range res.grid.length).drop 1).foldl
        (scanStep (scanCtx normW parseJson recips sendOk now template sheets
          res.grid))
        (⟨res.grid, [], 0, res.emailLog, []⟩ : ScanState)).attempts =
        ((List.range res.grid.length).drop 1).flatMap
          (attemptContrib (scanCtx normW parseJson recips sendOk now
            template sheets res.grid)) := by
      rw [scan_foldl_attempts]
      exact List.nil_append _
    unfold countAttempts
    rw [hatt2, count_flatMap_contrib _ _ _ hnd2]
    have hcj : attemptContrib (scanCtx normW parseJson recips sendOk now
        template sheets res.grid) i = [] := by
      unfold attemptContrib
      rw [if_neg (fun hc => Bool.false_ne_true (hq2 ▸ hc.1))]
    rw [hcj]
    split <;> rfl

/-- **C10 (witness)**: the fault-tolerance theorem at a concrete view
whose sender always throws. -/
theorem C10_sender_fault_tolerance_witness :
    (1, scanRecipients (scanCtx (fun _ => "W") (fun _ => [])
      (fun _ => ["a@b"]) (fun _ => false) "NOW" (some ⟨"s", "b", []⟩)
      [wScanSheet] [stdEventHeaders, wScanEvent]) 1) ∈
      (scanAndSendAlerts (fun _ => "W") (fun _ => []) (fun _ => ["a@b"])
        (fun _ => false) "NOW" (some ⟨"s", "b", []⟩) [wScanSheet]
        [stdEventHeaders, wScanEvent]
        (some [["Timestamp", "Body"]])).attempts ∧
    gcell (scanAndSendAlerts (fun _ => "W") (fun _ => []) (fun _ => ["a@b"])
      (fun _ => false) "NOW" (some ⟨"s", "b", []⟩) [wScanSheet]
      [stdEventHeaders, wScanEvent]
      (some [["Timestamp", "Body"]])).grid 1 12 = "NOW" ∧
    1 ∈ (scanAndSendAlerts (fun _ => "W") (fun _ => []) (fun _ => ["a@b"])
      (fun _ => false) "NOW" (some ⟨"s", "b", []⟩) [wScanSheet]
      [stdEventHeaders, wScanEvent]
      (some [["Timestamp", "Body"]])).audits ∧
    countAttempts (scanAndSendAlerts (fun _ => "W") (fun _ => [])
      (fun _ => ["a@b"]) (fun _ => false) "NOW" (some ⟨"s", "b", []⟩)
      [wScanSheet]
      (scanAndSendAlerts (fun _ => "W") (fun _ => []) (fun _ => ["a@b"])
        (fun _ => false) "NOW" (some ⟨"s", "b", []⟩) [wScanSheet]
        [stdEventHeaders, wScanEvent] (some [["Timestamp", "Body"]])).grid
      (scanAndSendAlerts (fun _ => "W") (fun _ => []) (fun _ => ["a@b"])
        (fun _ => false) "NOW" (some ⟨"s", "b", []⟩) [wScanSheet]
        [stdEventHeaders, wScanEvent]
        (some [["Timestamp", "Body"]])).emailLog) 1 = 0 := by
  have h := C10_sender_fault_tolerance (fun _ => "W") (fun _ => [])
    (fun _ => ["a@b"]) (fun _ => false) "NOW" (some ⟨"s", "b", []⟩)
    [wScanSheet] [stdEventHeaders, wScanEvent] [["Timestamp", "Body"]] 1
    rfl (by decide) (by decide) (by decide) (by decide) rfl (by decide)
  exact ⟨h.1, h.2.1, h.2.2.1, h.2.2.2.2⟩

end BSS
